import Mathlib

/-!
Verification of the training/verification loop of `TrainLyapunovReLU`
(`neural_network_lyapunov/train_lyapunov.py`).

The embedding is shallow: scalars computed by torch/gurobi are rationals,
sample tensors are lists of state vectors, and the external collaborators
(the MIP verifier, the sample-loss evaluators of the Lyapunov hybrid
system, the dynamical system's step function and the gradient-based
optimizer's parameter update) are opaque data/functions supplied as
arguments, exactly at the interface the Python code consumes them.
-/

set_option maxRecDepth 10000

namespace NNLyap

/-- A state vector (one row of a torch sample tensor). -/
abbrev Vec : Type := List ℚ

/-- A sample-pool tensor: an ordered list of state vectors. -/
abbrev Tensor : Type := List Vec

/-- The attributes of `TrainLyapunovReLU` that `total_loss` reads
(defaults set in `__init__`). -/
structure TLConfig where
  wPosSample : ℚ
  wDerSample : ℚ
  wPosMip : ℚ
  wDerMip : ℚ
  posPoolSolutions : ℕ
  derPoolSolutions : ℕ
  posDecay : ℚ
  derDecay : ℚ
  maxSamplePoolSize : ℕ
  addAdversarial : Bool
  deriving DecidableEq

/-- The default attribute values from `TrainLyapunovReLU.__init__`:
sample cost weights 1, MIP cost weights 10, pool sizes 10, decay rates
0.9, `max_sample_pool_size` 500, `add_adversarial_state_to_training`
False. -/
def defaultTLConfig : TLConfig :=
  { wPosSample := 1, wDerSample := 1, wPosMip := 10, wDerMip := 10,
    posPoolSolutions := 10, derPoolSolutions := 10,
    posDecay := 9/10, derDecay := 9/10,
    maxSamplePoolSize := 500, addAdversarial := false }

/-- The observable outcome of one solved gurobi MIP: the model objective
`ObjVal`, the reported pool solution count `solCount`, and the per-rank
objective extracted by `compute_objective_from_mip_data_and_solution`. -/
structure MipSolved where
  objVal : ℚ
  solCount : ℕ
  objAt : ℕ → ℚ

/-- Everything the external collaborators supply to one `total_loss`
call: the two solved MIPs (positivity and derivative), the two
sample-loss evaluators of the Lyapunov hybrid system (as functions of
the windowed pools actually passed to them), and the adversarial states
(the best-ranked MIP solutions, plus the derivative one stepped forward
through the system). -/
structure TLCollab where
  posMip : MipSolved
  derMip : MipSolved
  posSampleLossFn : Tensor → ℚ
  derSampleLossFn : Tensor → Tensor → ℚ
  posAdv : Vec
  derAdv : Vec
  derAdvNext : Vec

/-- The tuple returned by `total_loss`. -/
structure TLOut where
  loss : ℚ
  posObj : ℚ
  derObj : ℚ
  posSampleLoss : ℚ
  derSampleLoss : ℚ
  posMipLoss : ℚ
  derMipLoss : ℚ
  posPool : Tensor
  derPool : Tensor
  derNextPool : Tensor
  deriving DecidableEq

/-- `set_weight(val, default_val)`: a per-call override takes effect when
it is not None. -/
def set_weight (val : Option ℚ) (defaultVal : ℚ) : ℚ := val.getD defaultVal

/-- Python slice `l[-K:]`: for `K > 0` the last `K` entries (all of `l`
when `K ≥ len(l)`); `l[-0:]` is all of `l`. -/
def takeLast (K : ℕ) (l : List α) : List α :=
  if K = 0 then l else l.drop (l.length - K)

/-- The recency window applied to a sample pool: the code keeps only the
last `max_sample_pool_size` entries when the pool is strictly larger. -/
def poolWindow (K : ℕ) (l : List α) : List α :=
  if K < l.length then takeLast K l else l

/-- The accumulation loop for a certificate (MIP) loss: over ranks
`j ∈ range(poolSolutions)`, ranks below the solver's reported solution
count contribute `w * decay^j * f j`, all other ranks contribute
nothing. -/
def mipPoolLoss (w decay : ℚ) (poolSolutions solCount : ℕ) (f : ℕ → ℚ) : ℚ :=
  (List.range poolSolutions).foldl
    (fun acc j => if j < solCount then acc + w * decay ^ j * f j else acc) 0

/-- `TrainLyapunovReLU.total_loss`. The four weights may be overridden
per call (None selects the attribute default). The MIPs are solved
unconditionally (their objective values are always returned); each of
the four loss terms is computed exactly as in the source:
* a sample loss term is evaluated only when its resolved weight is
  nonzero and its pool nonempty, on the recency-windowed pool;
* a certificate loss term is accumulated only when its resolved weight
  is nonzero, over the ranked solution pool;
* with adversarial augmentation on, each pool is returned re-bound to a
  freshly concatenated tensor holding one extra row. -/
def total_loss (cfg : TLConfig) (c : TLCollab)
    (positivity_state_samples derivative_state_samples
      derivative_state_samples_next : Tensor)
    (owPosSample owDerSample owPosMip owDerMip : Option ℚ) : TLOut :=
  let wPosSample := set_weight owPosSample cfg.wPosSample
  let posSampleLoss :=
    if wPosSample ≠ 0 ∧ 0 < positivity_state_samples.length then
      wPosSample * c.posSampleLossFn
        (poolWindow cfg.maxSamplePoolSize positivity_state_samples)
    else 0
  let wDerSample := set_weight owDerSample cfg.wDerSample
  let dInPool := poolWindow cfg.maxSamplePoolSize derivative_state_samples
  let dnInPool :=
    if cfg.maxSamplePoolSize < derivative_state_samples.length then
      takeLast cfg.maxSamplePoolSize derivative_state_samples_next
    else derivative_state_samples_next
  let derSampleLoss :=
    if wDerSample ≠ 0 ∧ 0 < derivative_state_samples.length then
      wDerSample * c.derSampleLossFn dInPool dnInPool
    else 0
  let wPosMip := set_weight owPosMip cfg.wPosMip
  let posMipLoss :=
    if wPosMip = 0 then 0
    else mipPoolLoss wPosMip cfg.posDecay cfg.posPoolSolutions
      c.posMip.solCount (fun j => -(c.posMip.objAt j))
  let wDerMip := set_weight owDerMip cfg.wDerMip
  let derMipLoss :=
    if wDerMip = 0 then 0
    else mipPoolLoss wDerMip cfg.derDecay cfg.derPoolSolutions
      c.derMip.solCount c.derMip.objAt
  let posPool :=
    if cfg.addAdversarial then positivity_state_samples ++ [c.posAdv]
    else positivity_state_samples
  let derPool :=
    if cfg.addAdversarial then derivative_state_samples ++ [c.derAdv]
    else derivative_state_samples
  let derNextPool :=
    if cfg.addAdversarial then derivative_state_samples_next ++ [c.derAdvNext]
    else derivative_state_samples_next
  { loss := posSampleLoss + derSampleLoss + posMipLoss + derMipLoss,
    posObj := c.posMip.objVal, derObj := c.derMip.objVal,
    posSampleLoss := posSampleLoss, derSampleLoss := derSampleLoss,
    posMipLoss := posMipLoss, derMipLoss := derMipLoss,
    posPool := posPool, derPool := derPool, derNextPool := derNextPool }

/-- A concrete collaborator used for evaluation witnesses: both MIPs
report the given objectives with an empty solution pool, sample losses
are zero, adversarial states are the origin. -/
def constCollab (pos der : ℚ) : TLCollab :=
  { posMip := ⟨pos, 0, fun _ => 0⟩, derMip := ⟨der, 0, fun _ => 0⟩,
    posSampleLossFn := fun _ => 0, derSampleLossFn := fun _ _ => 0,
    posAdv := [0], derAdv := [0], derAdvNext := [0] }

/-! ### Projection lemmas for `total_loss` (definitional) -/

theorem total_loss_posSampleLoss (cfg : TLConfig) (c : TLCollab)
    (pP dP dnP : Tensor) (o1 o2 o3 o4 : Option ℚ) :
    (total_loss cfg c pP dP dnP o1 o2 o3 o4).posSampleLoss =
      if set_weight o1 cfg.wPosSample ≠ 0 ∧ 0 < pP.length then
        set_weight o1 cfg.wPosSample *
          c.posSampleLossFn (poolWindow cfg.maxSamplePoolSize pP)
      else 0 := rfl

theorem total_loss_derSampleLoss (cfg : TLConfig) (c : TLCollab)
    (pP dP dnP : Tensor) (o1 o2 o3 o4 : Option ℚ) :
    (total_loss cfg c pP dP dnP o1 o2 o3 o4).derSampleLoss =
      if set_weight o2 cfg.wDerSample ≠ 0 ∧ 0 < dP.length then
        set_weight o2 cfg.wDerSample *
          c.derSampleLossFn (poolWindow cfg.maxSamplePoolSize dP)
            (if cfg.maxSamplePoolSize < dP.length then
              takeLast cfg.maxSamplePoolSize dnP
            else dnP)
      else 0 := rfl

theorem total_loss_posMipLoss (cfg : TLConfig) (c : TLCollab)
    (pP dP dnP : Tensor) (o1 o2 o3 o4 : Option ℚ) :
    (total_loss cfg c pP dP dnP o1 o2 o3 o4).posMipLoss =
      if set_weight o3 cfg.wPosMip = 0 then 0
      else mipPoolLoss (set_weight o3 cfg.wPosMip) cfg.posDecay
        cfg.posPoolSolutions c.posMip.solCount
        (fun j => -(c.posMip.objAt j)) := rfl

theorem total_loss_derMipLoss (cfg : TLConfig) (c : TLCollab)
    (pP dP dnP : Tensor) (o1 o2 o3 o4 : Option ℚ) :
    (total_loss cfg c pP dP dnP o1 o2 o3 o4).derMipLoss =
      if set_weight o4 cfg.wDerMip = 0 then 0
      else mipPoolLoss (set_weight o4 cfg.wDerMip) cfg.derDecay
        cfg.derPoolSolutions c.derMip.solCount c.derMip.objAt := rfl

theorem total_loss_loss (cfg : TLConfig) (c : TLCollab)
    (pP dP dnP : Tensor) (o1 o2 o3 o4 : Option ℚ) :
    (total_loss cfg c pP dP dnP o1 o2 o3 o4).loss =
      (total_loss cfg c pP dP dnP o1 o2 o3 o4).posSampleLoss +
      (total_loss cfg c pP dP dnP o1 o2 o3 o4).derSampleLoss +
      (total_loss cfg c pP dP dnP o1 o2 o3 o4).posMipLoss +
      (total_loss cfg c pP dP dnP o1 o2 o3 o4).derMipLoss := rfl

theorem total_loss_posObj (cfg : TLConfig) (c : TLCollab)
    (pP dP dnP : Tensor) (o1 o2 o3 o4 : Option ℚ) :
    (total_loss cfg c pP dP dnP o1 o2 o3 o4).posObj = c.posMip.objVal := rfl

theorem total_loss_derObj (cfg : TLConfig) (c : TLCollab)
    (pP dP dnP : Tensor) (o1 o2 o3 o4 : Option ℚ) :
    (total_loss cfg c pP dP dnP o1 o2 o3 o4).derObj = c.derMip.objVal := rfl

theorem total_loss_posPool (cfg : TLConfig) (c : TLCollab)
    (pP dP dnP : Tensor) (o1 o2 o3 o4 : Option ℚ) :
    (total_loss cfg c pP dP dnP o1 o2 o3 o4).posPool =
      if cfg.addAdversarial then pP ++ [c.posAdv] else pP := rfl

theorem total_loss_derPool (cfg : TLConfig) (c : TLCollab)
    (pP dP dnP : Tensor) (o1 o2 o3 o4 : Option ℚ) :
    (total_loss cfg c pP dP dnP o1 o2 o3 o4).derPool =
      if cfg.addAdversarial then dP ++ [c.derAdv] else dP := rfl

theorem total_loss_derNextPool (cfg : TLConfig) (c : TLCollab)
    (pP dP dnP : Tensor) (o1 o2 o3 o4 : Option ℚ) :
    (total_loss cfg c pP dP dnP o1 o2 o3 o4).derNextPool =
      if cfg.addAdversarial then dnP ++ [c.derAdvNext] else dnP := rfl

/-! ### Window lemmas -/

theorem takeLast_append {α : Type} (K : ℕ) (hK : K ≠ 0) (pre l : List α)
    (h : K ≤ l.length) : takeLast K (pre ++ l) = takeLast K l := by
  unfold takeLast
  rw [if_neg hK, if_neg hK]
  have h1 : (pre ++ l).length - K = pre.length + (l.length - K) := by
    simp only [List.length_append]; omega
  rw [h1, List.drop_append]

theorem takeLast_of_length_le {α : Type} (K : ℕ) (l : List α)
    (h : l.length ≤ K) : takeLast K l = l := by
  unfold takeLast
  split
  · rfl
  · have h0 : l.length - K = 0 := by omega
    rw [h0, List.drop_zero]

theorem poolWindow_append {α : Type} (K : ℕ) (hK : 0 < K) (pre l : List α)
    (h : K ≤ l.length) : poolWindow K (pre ++ l) = poolWindow K l := by
  rcases eq_or_ne pre [] with hpre | hpre
  · rw [hpre, List.nil_append]
  · have hlen : 0 < pre.length := List.length_pos.mpr hpre
    unfold poolWindow
    rw [if_pos (by simp only [List.length_append]; omega),
      takeLast_append K (by omega) pre l h]
    split
    · rfl
    · exact takeLast_of_length_le K l (by omega)

theorem derNextWindow_append (K : ℕ) (hK : 0 < K)
    (dPre dP dnPre dnP : Tensor) (h2 : K ≤ dP.length)
    (h3 : dnP.length = dP.length) (h4 : dnPre.length = dPre.length) :
    (if K < (dPre ++ dP).length then takeLast K (dnPre ++ dnP)
      else dnPre ++ dnP) =
    (if K < dP.length then takeLast K dnP else dnP) := by
  rcases eq_or_ne dPre [] with hpre | hpre
  · have hn : dnPre = [] := by
      rw [hpre] at h4; exact List.length_eq_zero.mp h4
    rw [hpre, hn, List.nil_append, List.nil_append]
  · have hlen : 0 < dPre.length := List.length_pos.mpr hpre
    rw [if_pos (by simp only [List.length_append]; omega),
      takeLast_append K (by omega) dnPre dnP (by omega)]
    split
    · rfl
    · exact takeLast_of_length_le K dnP (by omega)

/-! ### The MIP pool loss as a ranked sum -/

theorem mipPoolLoss_foldl_aux (w decay : ℚ) (c : ℕ) (f : ℕ → ℚ) :
    ∀ (P : ℕ) (a : ℚ),
      (List.range P).foldl
        (fun acc j => if j < c then acc + w * decay ^ j * f j else acc) a =
      a + ∑ j in Finset.range (Nat.min P c), w * decay ^ j * f j := by
  intro P
  induction P with
  | zero => intro a; simp
  | succ n ih =>
    intro a
    rw [List.range_succ, List.foldl_append, ih, List.foldl_cons,
      List.foldl_nil]
    by_cases h : n < c
    · have h2 : Nat.min n c = n := by
        simp only [Nat.min_def]; split_ifs <;> omega
      have h1 : Nat.min (n + 1) c = n + 1 := by
        simp only [Nat.min_def]; split_ifs <;> omega
      rw [if_pos h, h1, Finset.sum_range_succ, h2]
      ring
    · have h1 : Nat.min (n + 1) c = Nat.min n c := by
        simp only [Nat.min_def]; split_ifs <;> omega
      rw [if_neg h, h1]

theorem mipPoolLoss_eq_sum (w decay : ℚ) (P c : ℕ) (f : ℕ → ℚ) :
    mipPoolLoss w decay P c f =
      ∑ j in Finset.range (Nat.min P c), w * decay ^ j * f j := by
  unfold mipPoolLoss
  rw [mipPoolLoss_foldl_aux, zero_add]

theorem nat_min_eq_right {a b : ℕ} (h : b ≤ a) : Nat.min a b = b := by
  simp only [Nat.min_def]; split_ifs <;> omega

/-! ### Claim C4 -/

/-- C4: in `total_loss`, a sample loss term whose resolved weight is
zero or whose sample pool is empty is exactly 0 and the corresponding
sample-loss collaborator is not invoked (the entire returned tuple is
independent of that collaborator function); a certificate loss term
whose resolved MIP cost weight is zero is exactly 0 and the returned
tuple is independent of the ranked-solution objective extraction for
that term, so no solver work is forced by the term (the MIPs are still
solved once for the objective values the code always returns). -/
theorem c4_zero_weight_skips_terms (cfg : TLConfig) (c : TLCollab)
    (pP dP dnP : Tensor) (o1 o2 o3 o4 : Option ℚ) :
    (set_weight o1 cfg.wPosSample = 0 ∨ pP = [] →
      (total_loss cfg c pP dP dnP o1 o2 o3 o4).posSampleLoss = 0 ∧
      ∀ f, total_loss cfg { c with posSampleLossFn := f }
          pP dP dnP o1 o2 o3 o4 =
        total_loss cfg c pP dP dnP o1 o2 o3 o4) ∧
    (set_weight o2 cfg.wDerSample = 0 ∨ dP = [] →
      (total_loss cfg c pP dP dnP o1 o2 o3 o4).derSampleLoss = 0 ∧
      ∀ f, total_loss cfg { c with derSampleLossFn := f }
          pP dP dnP o1 o2 o3 o4 =
        total_loss cfg c pP dP dnP o1 o2 o3 o4) ∧
    (set_weight o3 cfg.wPosMip = 0 →
      (total_loss cfg c pP dP dnP o1 o2 o3 o4).posMipLoss = 0 ∧
      ∀ g, total_loss cfg { c with posMip := { c.posMip with objAt := g } }
          pP dP dnP o1 o2 o3 o4 =
        total_loss cfg c pP dP dnP o1 o2 o3 o4) ∧
    (set_weight o4 cfg.wDerMip = 0 →
      (total_loss cfg c pP dP dnP o1 o2 o3 o4).derMipLoss = 0 ∧
      ∀ g, total_loss cfg { c with derMip := { c.derMip with objAt := g } }
          pP dP dnP o1 o2 o3 o4 =
        total_loss cfg c pP dP dnP o1 o2 o3 o4) := by
  refine ⟨fun h => ⟨?_, fun f => ?_⟩, fun h => ⟨?_, fun f => ?_⟩,
    fun h => ⟨?_, fun g => ?_⟩, fun h => ⟨?_, fun g => ?_⟩⟩
  · have hcond : ¬(set_weight o1 cfg.wPosSample ≠ 0 ∧ 0 < pP.length) := by
      rcases h with h | h
      · exact fun hc => hc.1 h
      · intro hc; rw [h] at hc; exact absurd hc.2 (by simp)
    rw [total_loss_posSampleLoss, if_neg hcond]
  · have hcond : ¬(set_weight o1 cfg.wPosSample ≠ 0 ∧ 0 < pP.length) := by
      rcases h with h | h
      · exact fun hc => hc.1 h
      · intro hc; rw [h] at hc; exact absurd hc.2 (by simp)
    simp only [total_loss, if_neg hcond]
  · have hcond : ¬(set_weight o2 cfg.wDerSample ≠ 0 ∧ 0 < dP.length) := by
      rcases h with h | h
      · exact fun hc => hc.1 h
      · intro hc; rw [h] at hc; exact absurd hc.2 (by simp)
    rw [total_loss_derSampleLoss, if_neg hcond]
  · have hcond : ¬(set_weight o2 cfg.wDerSample ≠ 0 ∧ 0 < dP.length) := by
      rcases h with h | h
      · exact fun hc => hc.1 h
      · intro hc; rw [h] at hc; exact absurd hc.2 (by simp)
    simp only [total_loss, if_neg hcond]
  · rw [total_loss_posMipLoss, if_pos h]
  · simp [total_loss, h]
  · rw [total_loss_derMipLoss, if_pos h]
  · simp [total_loss, h]

/-- Witness for C4: with an empty positivity pool, a zero derivative
sample weight override and zero MIP weight overrides, all four terms
are 0 and replacing the positivity sample-loss collaborator changes
nothing. -/
theorem c4_witness :
    (total_loss defaultTLConfig (constCollab 1 1) [] [[1]] [[1]]
      none (some 0) (some 0) (some 0)).posSampleLoss = 0 ∧
    (total_loss defaultTLConfig (constCollab 1 1) [] [[1]] [[1]]
      none (some 0) (some 0) (some 0)).derSampleLoss = 0 ∧
    (total_loss defaultTLConfig (constCollab 1 1) [] [[1]] [[1]]
      none (some 0) (some 0) (some 0)).posMipLoss = 0 ∧
    (total_loss defaultTLConfig (constCollab 1 1) [] [[1]] [[1]]
      none (some 0) (some 0) (some 0)).derMipLoss = 0 ∧
    total_loss defaultTLConfig
      { constCollab 1 1 with posSampleLossFn := fun _ => 99 } [] [[1]] [[1]]
      none (some 0) (some 0) (some 0) =
    total_loss defaultTLConfig (constCollab 1 1) [] [[1]] [[1]]
      none (some 0) (some 0) (some 0) := by
  have h := c4_zero_weight_skips_terms defaultTLConfig (constCollab 1 1)
    [] [[1]] [[1]] none (some 0) (some 0) (some 0)
  exact ⟨(h.1 (Or.inr rfl)).1, (h.2.1 (Or.inl (by decide))).1,
    (h.2.2.1 (by decide)).1, (h.2.2.2 (by decide)).1,
    (h.1 (Or.inr rfl)).2 _⟩

/-! ### Claim C5 -/

/-- C5: with a nonzero certificate MIP cost weight, the positivity
certificate loss is the ranked sum Σ_j w·r^j·(−obj_j) and the derivative
certificate loss is Σ_j w·r^j·obj_j, the ranks running below both the
configured pool size and the solver's reported solution count (so every
rank at or beyond the reported count contributes exactly zero); when the
reported count is at most the configured pool size the sums range
exactly over the ranks strictly below the reported count. -/
theorem c5_mip_loss_ranked_sum (cfg : TLConfig) (c : TLCollab)
    (pP dP dnP : Tensor) (o1 o2 o3 o4 : Option ℚ)
    (hpos : set_weight o3 cfg.wPosMip ≠ 0)
    (hder : set_weight o4 cfg.wDerMip ≠ 0) :
    ((total_loss cfg c pP dP dnP o1 o2 o3 o4).posMipLoss =
      ∑ j in Finset.range (Nat.min cfg.posPoolSolutions c.posMip.solCount),
        set_weight o3 cfg.wPosMip * cfg.posDecay ^ j * -(c.posMip.objAt j)) ∧
    ((total_loss cfg c pP dP dnP o1 o2 o3 o4).derMipLoss =
      ∑ j in Finset.range (Nat.min cfg.derPoolSolutions c.derMip.solCount),
        set_weight o4 cfg.wDerMip * cfg.derDecay ^ j * c.derMip.objAt j) ∧
    (c.posMip.solCount ≤ cfg.posPoolSolutions →
      (total_loss cfg c pP dP dnP o1 o2 o3 o4).posMipLoss =
      ∑ j in Finset.range c.posMip.solCount,
        set_weight o3 cfg.wPosMip * cfg.posDecay ^ j * -(c.posMip.objAt j)) ∧
    (c.derMip.solCount ≤ cfg.derPoolSolutions →
      (total_loss cfg c pP dP dnP o1 o2 o3 o4).derMipLoss =
      ∑ j in Finset.range c.derMip.solCount,
        set_weight o4 cfg.wDerMip * cfg.derDecay ^ j * c.derMip.objAt j) := by
  have hp := total_loss_posMipLoss cfg c pP dP dnP o1 o2 o3 o4
  rw [if_neg hpos] at hp
  have hd := total_loss_derMipLoss cfg c pP dP dnP o1 o2 o3 o4
  rw [if_neg hder] at hd
  refine ⟨?_, ?_, fun hle => ?_, fun hle => ?_⟩
  · rw [hp, mipPoolLoss_eq_sum]
  · rw [hd, mipPoolLoss_eq_sum]
  · rw [hp, mipPoolLoss_eq_sum, nat_min_eq_right hle]
  · rw [hd, mipPoolLoss_eq_sum, nat_min_eq_right hle]

/-- A collaborator with nontrivial ranked solution pools, for the C5
witness: both MIPs report 2 pool solutions with rank-j objective j+1. -/
def rankedCollab : TLCollab :=
  { posMip := ⟨-1, 2, fun j => (j : ℚ) + 1⟩,
    derMip := ⟨1, 2, fun j => (j : ℚ) + 1⟩,
    posSampleLossFn := fun _ => 0, derSampleLossFn := fun _ _ => 0,
    posAdv := [0], derAdv := [0], derAdvNext := [0] }

/-- Witness for C5, at a configuration with pool size 3 and a solver
report of 2 ranked solutions. -/
theorem c5_witness :
    ((total_loss { defaultTLConfig with
        posPoolSolutions := 3, derPoolSolutions := 3 } rankedCollab
      [] [] [] none none none none).posMipLoss =
      ∑ j in Finset.range 2, (10 : ℚ) * (9/10) ^ j * -((j : ℚ) + 1)) ∧
    ((total_loss { defaultTLConfig with
        posPoolSolutions := 3, derPoolSolutions := 3 } rankedCollab
      [] [] [] none none none none).derMipLoss =
      ∑ j in Finset.range 2, (10 : ℚ) * (9/10) ^ j * ((j : ℚ) + 1)) := by
  have h := c5_mip_loss_ranked_sum { defaultTLConfig with
      posPoolSolutions := 3, derPoolSolutions := 3 } rankedCollab
    [] [] [] none none none none (by decide) (by decide)
  exact ⟨h.2.2.1 (by decide), h.2.2.2 (by decide)⟩

/-! ### Claim C6 -/

/-- C6: the loss scalars returned by `total_loss` are invariant to
prepending entries in front of the most recent `max_sample_pool_size`
entries of the sample pools: when each pool already holds at least the
window size (and derivative sample/next-state entries are prepended in
pairs), only the last `max_sample_pool_size` entries enter the sample
loss terms, and no returned loss scalar changes. -/
theorem c6_prepend_invariance (cfg : TLConfig) (c : TLCollab)
    (pPre pP dPre dP dnPre dnP : Tensor) (o1 o2 o3 o4 : Option ℚ)
    (hK : 0 < cfg.maxSamplePoolSize)
    (h1 : cfg.maxSamplePoolSize ≤ pP.length)
    (h2 : cfg.maxSamplePoolSize ≤ dP.length)
    (h3 : dnP.length = dP.length)
    (h4 : dnPre.length = dPre.length) :
    (total_loss cfg c (pPre ++ pP) (dPre ++ dP) (dnPre ++ dnP)
        o1 o2 o3 o4).loss =
      (total_loss cfg c pP dP dnP o1 o2 o3 o4).loss ∧
    (total_loss cfg c (pPre ++ pP) (dPre ++ dP) (dnPre ++ dnP)
        o1 o2 o3 o4).posSampleLoss =
      (total_loss cfg c pP dP dnP o1 o2 o3 o4).posSampleLoss ∧
    (total_loss cfg c (pPre ++ pP) (dPre ++ dP) (dnPre ++ dnP)
        o1 o2 o3 o4).derSampleLoss =
      (total_loss cfg c pP dP dnP o1 o2 o3 o4).derSampleLoss ∧
    (total_loss cfg c (pPre ++ pP) (dPre ++ dP) (dnPre ++ dnP)
        o1 o2 o3 o4).posMipLoss =
      (total_loss cfg c pP dP dnP o1 o2 o3 o4).posMipLoss ∧
    (total_loss cfg c (pPre ++ pP) (dPre ++ dP) (dnPre ++ dnP)
        o1 o2 o3 o4).derMipLoss =
      (total_loss cfg c pP dP dnP o1 o2 o3 o4).derMipLoss ∧
    (total_loss cfg c (pPre ++ pP) (dPre ++ dP) (dnPre ++ dnP)
        o1 o2 o3 o4).posObj =
      (total_loss cfg c pP dP dnP o1 o2 o3 o4).posObj ∧
    (total_loss cfg c (pPre ++ pP) (dPre ++ dP) (dnPre ++ dnP)
        o1 o2 o3 o4).derObj =
      (total_loss cfg c pP dP dnP o1 o2 o3 o4).derObj := by
  have hp1 : 0 < pP.length := lt_of_lt_of_le hK h1
  have hp2 : 0 < (pPre ++ pP).length := by
    simp only [List.length_append]; omega
  have hd1 : 0 < dP.length := lt_of_lt_of_le hK h2
  have hd2 : 0 < (dPre ++ dP).length := by
    simp only [List.length_append]; omega
  have hps : (total_loss cfg c (pPre ++ pP) (dPre ++ dP) (dnPre ++ dnP)
        o1 o2 o3 o4).posSampleLoss =
      (total_loss cfg c pP dP dnP o1 o2 o3 o4).posSampleLoss := by
    rw [total_loss_posSampleLoss, total_loss_posSampleLoss]
    by_cases hw : set_weight o1 cfg.wPosSample = 0
    · rw [if_neg (fun hc => hc.1 hw), if_neg (fun hc => hc.1 hw)]
    · rw [if_pos (show set_weight o1 cfg.wPosSample ≠ 0 ∧
          0 < (pPre ++ pP).length from ⟨hw, hp2⟩),
        if_pos (show set_weight o1 cfg.wPosSample ≠ 0 ∧
          0 < pP.length from ⟨hw, hp1⟩),
        poolWindow_append cfg.maxSamplePoolSize hK pPre pP h1]
  have hds : (total_loss cfg c (pPre ++ pP) (dPre ++ dP) (dnPre ++ dnP)
        o1 o2 o3 o4).derSampleLoss =
      (total_loss cfg c pP dP dnP o1 o2 o3 o4).derSampleLoss := by
    rw [total_loss_derSampleLoss, total_loss_derSampleLoss]
    by_cases hw : set_weight o2 cfg.wDerSample = 0
    · rw [if_neg (fun hc => hc.1 hw), if_neg (fun hc => hc.1 hw)]
    · rw [if_pos (show set_weight o2 cfg.wDerSample ≠ 0 ∧
          0 < (dPre ++ dP).length from ⟨hw, hd2⟩),
        if_pos (show set_weight o2 cfg.wDerSample ≠ 0 ∧
          0 < dP.length from ⟨hw, hd1⟩),
        poolWindow_append cfg.maxSamplePoolSize hK dPre dP h2,
        derNextWindow_append cfg.maxSamplePoolSize hK dPre dP dnPre dnP
          h2 h3 h4]
  have hpm : (total_loss cfg c (pPre ++ pP) (dPre ++ dP) (dnPre ++ dnP)
        o1 o2 o3 o4).posMipLoss =
      (total_loss cfg c pP dP dnP o1 o2 o3 o4).posMipLoss := by
    rw [total_loss_posMipLoss, total_loss_posMipLoss]
  have hdm : (total_loss cfg c (pPre ++ pP) (dPre ++ dP) (dnPre ++ dnP)
        o1 o2 o3 o4).derMipLoss =
      (total_loss cfg c pP dP dnP o1 o2 o3 o4).derMipLoss := by
    rw [total_loss_derMipLoss, total_loss_derMipLoss]
  refine ⟨?_, hps, hds, hpm, hdm, rfl, rfl⟩
  rw [total_loss_loss, total_loss_loss, hps, hds, hpm, hdm]

/-! ### The gradient projection modes and the `train` loop -/

/-- `train_utils.ProjectGradientMode`, the mode passed to
`project_gradient`. -/
inductive PGMode where
  | LOSS1 : PGMode
  | LOSS2 : PGMode
  | BOTH : PGMode
  | EMPHASIZE_LOSS1 : PGMode
  deriving DecidableEq

/-- `ProjectGradientMethod`. -/
inductive PGMethod where
  | NONE : PGMethod
  | SUM : PGMethod
  | ALTERNATE : PGMethod
  | EMPHASIZE_POSITIVITY : PGMethod
  deriving DecidableEq

/-- The attributes `train` reads beyond the `total_loss` configuration:
the iteration budget, the two convergence tolerances and the gradient
projection method. -/
structure TrainConfig where
  cfg : TLConfig
  maxIterations : ℕ
  tolPos : ℚ
  tolDer : ℚ
  method : PGMethod

/-- Defaults from `__init__`: `max_iterations` 1000,
`lyapunov_positivity_convergence_tol` 1e-6,
`lyapunov_derivative_convergence_tol` 3e-5,
`project_gradient_method` NONE. -/
def defaultTrainConfig : TrainConfig :=
  { cfg := defaultTLConfig, maxIterations := 1000,
    tolPos := 1/1000000, tolDer := 3/100000, method := PGMethod.NONE }

/-- The state of one `train` run at the top of the `while` loop: the
network parameters (an abstract type `P`, changed only by the optimizer
step), the three sample pools, the history lists written so far, the
loop-local `project_gradient_mode` variable (`none` while unassigned)
and the iteration counter. `modeTrace` and `poolTrace` are ghost
observations: for each executed iteration they record the projection
mode passed to `project_gradient` (only when the method is not NONE,
matching when the code calls it) and the lengths of the two derivative
pools at the top of the iteration. -/
structure TState (P : Type) where
  params : P
  pPool : Tensor
  dPool : Tensor
  dnPool : Tensor
  losses : List ℚ
  posCosts : List ℚ
  derCosts : List ℚ
  pgMode : Option PGMode
  iter : ℕ
  modeTrace : List PGMode
  poolTrace : List (ℕ × ℕ)

/-- The observable outcome of a `train` run: the returned convergence
flag and (truncated) history lists, together with the final values of
the network parameters, the pools and the ghost traces. -/
structure TrainResult (P : Type) where
  converged : Bool
  losses : List ℚ
  posCosts : List ℚ
  derCosts : List ℚ
  params : P
  pPool : Tensor
  dPool : Tensor
  dnPool : Tensor
  modeTrace : List PGMode
  poolTrace : List (ℕ × ℕ)

/-- The per-iteration update of the loop-local `project_gradient_mode`
variable (train, lines 507-522): SUM always selects BOTH;
ALTERNATE selects LOSS2 at iteration 0 and afterwards LOSS1 exactly when
the previous mode was LOSS2, else LOSS2; EMPHASIZE_POSITIVITY always
selects EMPHASIZE_LOSS1; under NONE the variable is never assigned. -/
def nextPGMode (method : PGMethod) (prev : Option PGMode) (iter : ℕ) :
    Option PGMode :=
  match method with
  | PGMethod.NONE => prev
  | PGMethod.SUM => some PGMode.BOTH
  | PGMethod.ALTERNATE =>
      if iter = 0 then some PGMode.LOSS2
      else match prev with
        | some PGMode.LOSS2 => some PGMode.LOSS1
        | _ => some PGMode.LOSS2
  | PGMethod.EMPHASIZE_POSITIVITY => some PGMode.EMPHASIZE_LOSS1

/-- The `while iter_count < max_iterations` loop of
`TrainLyapunovReLU.train`, by structural recursion on the remaining
iteration budget. `collabAt i p` is what the external collaborators
return at iteration `i` with network parameters `p`; `optStep i p` is
the parameter vector after the optimizer step of iteration `i`
(backward / gradient projection only fill the gradient buffers and are
absorbed into it). Each iteration calls `total_loss` (re-binding the
three pools from its return), appends to the histories, returns
converged as soon as `posObj ≥ -tol_pos ∧ derObj ≤ tol_der` — before
any optimizer step — and otherwise resolves the projection mode, steps
the optimizer and continues. -/
def trainAux {P : Type} (tc : TrainConfig) (collabAt : ℕ → P → TLCollab)
    (optStep : ℕ → P → P) : ℕ → TState P → TrainResult P
  | 0, s => ⟨false, s.losses, s.posCosts, s.derCosts, s.params,
      s.pPool, s.dPool, s.dnPool, s.modeTrace, s.poolTrace⟩
  | fuel + 1, s =>
    let out := total_loss tc.cfg (collabAt s.iter s.params)
      s.pPool s.dPool s.dnPool none none none none
    if -tc.tolPos ≤ out.posObj ∧ out.derObj ≤ tc.tolDer then
      ⟨true, s.losses ++ [out.loss], s.posCosts ++ [out.posObj],
        s.derCosts ++ [out.derObj], s.params,
        out.posPool, out.derPool, out.derNextPool, s.modeTrace,
        s.poolTrace ++ [(s.dPool.length, s.dnPool.length)]⟩
    else
      let mode := nextPGMode tc.method s.pgMode s.iter
      trainAux tc collabAt optStep fuel
        { params := optStep s.iter s.params,
          pPool := out.posPool, dPool := out.derPool,
          dnPool := out.derNextPool,
          losses := s.losses ++ [out.loss],
          posCosts := s.posCosts ++ [out.posObj],
          derCosts := s.derCosts ++ [out.derObj],
          pgMode := mode, iter := s.iter + 1,
          modeTrace := if tc.method = PGMethod.NONE then s.modeTrace
            else s.modeTrace ++ [mode.getD PGMode.BOTH],
          poolTrace := s.poolTrace ++ [(s.dPool.length, s.dnPool.length)] }

/-- `TrainLyapunovReLU.train`: both sample pools start as copies of the
input samples, the derivative next-state pool holds one stepped-forward
state per sample, and the loop runs for up to `max_iterations`
iterations. -/
def train {P : Type} (tc : TrainConfig) (collabAt : ℕ → P → TLCollab)
    (optStep : ℕ → P → P) (step_forward : Vec → Vec)
    (state_samples_all : Tensor) (params : P) : TrainResult P :=
  trainAux tc collabAt optStep tc.maxIterations
    { params := params, pPool := state_samples_all,
      dPool := state_samples_all,
      dnPool := state_samples_all.map step_forward,
      losses := [], posCosts := [], derCosts := [],
      pgMode := none, iter := 0, modeTrace := [], poolTrace := [] }

/-! ### Claim C1 -/

/-- C1: at any iteration the training loop reaches where the positivity
MIP objective is ≥ -lyapunov_positivity_convergence_tol and the
derivative MIP objective is ≤ lyapunov_derivative_convergence_tol,
`train` returns converged = True with the three histories truncated to
the executed iterations (the current one included), no optimizer step is
taken at that iteration, and the network parameter vector is unchanged
from its value at the start of that iteration. -/
theorem c1_train_converged_no_step {P : Type} (tc : TrainConfig)
    (collabAt : ℕ → P → TLCollab) (optStep : ℕ → P → P) (fuel : ℕ)
    (s : TState P) (out : TLOut)
    (hout : out = total_loss tc.cfg (collabAt s.iter s.params)
      s.pPool s.dPool s.dnPool none none none none)
    (h1 : -tc.tolPos ≤ out.posObj) (h2 : out.derObj ≤ tc.tolDer) :
    trainAux tc collabAt optStep (fuel + 1) s =
      ⟨true, s.losses ++ [out.loss], s.posCosts ++ [out.posObj],
        s.derCosts ++ [out.derObj], s.params,
        out.posPool, out.derPool, out.derNextPool, s.modeTrace,
        s.poolTrace ++ [(s.dPool.length, s.dnPool.length)]⟩ := by
  subst hout
  simp only [trainAux]
  rw [if_pos ⟨h1, h2⟩]

/-- A concrete initial loop state over parameter type ℚ, for
witnesses. -/
def qTState : TState ℚ :=
  ⟨0, [], [], [], [], [], [], none, 0, [], []⟩

/-- A training configuration with integer tolerances, used by
evaluation witnesses (the kernel cannot evaluate comparisons on
rationals written with `/`). -/
def witTrainConfig : TrainConfig :=
  { cfg := defaultTLConfig, maxIterations := 3, tolPos := 1, tolDer := 1,
    method := PGMethod.NONE }

/-- Witness for C1: with a collaborator reporting objectives (0, 0), the
loop returns converged on the spot and the parameters are untouched. -/
theorem c1_witness :
    (trainAux witTrainConfig (fun _ _ => constCollab 0 0)
      (fun _ p => p + 1) (4 + 1) qTState).converged = true ∧
    (trainAux witTrainConfig (fun _ _ => constCollab 0 0)
      (fun _ p => p + 1) (4 + 1) qTState).params = 0 := by
  have h := c1_train_converged_no_step witTrainConfig
    (fun _ _ => constCollab 0 0) (fun _ p => p + 1) 4 qTState _
    rfl (by decide) (by decide)
  rw [h]
  exact ⟨rfl, rfl⟩

/-! ### Claim C7 -/

/-- The alternation pattern: LOSS2 on even iterations, LOSS1 on odd
ones. -/
def altModeAt (n : ℕ) : PGMode :=
  if n % 2 = 0 then PGMode.LOSS2 else PGMode.LOSS1

theorem nextPGMode_alternate (prev : Option PGMode) (n : ℕ)
    (hprev : prev = some (altModeAt n)) :
    nextPGMode PGMethod.ALTERNATE prev (n + 1) =
      some (altModeAt (n + 1)) := by
  subst hprev
  have h : n % 2 = 0 ∨ n % 2 = 1 := by omega
  rcases h with h | h
  · have h1 : (n + 1) % 2 = 1 := by omega
    simp [nextPGMode, altModeAt, h, h1]
  · have h1 : (n + 1) % 2 = 0 := by omega
    simp [nextPGMode, altModeAt, h, h1]

theorem trainAux_alternate_trace {P : Type} (tc : TrainConfig)
    (collabAt : ℕ → P → TLCollab) (optStep : ℕ → P → P)
    (hm : tc.method = PGMethod.ALTERNATE) :
    ∀ (fuel : ℕ) (s : TState P),
      s.modeTrace = (List.range s.iter).map altModeAt →
      (0 < s.iter → s.pgMode = some (altModeAt (s.iter - 1))) →
      ∃ n, (trainAux tc collabAt optStep fuel s).modeTrace =
        (List.range n).map altModeAt := by
  intro fuel
  induction fuel with
  | zero => intro s h1 _; exact ⟨s.iter, h1⟩
  | succ f ih =>
    intro s h1 h2
    have hmode : nextPGMode tc.method s.pgMode s.iter =
        some (altModeAt s.iter) := by
      rw [hm]
      rcases Nat.eq_zero_or_pos s.iter with h0 | h0
      · rw [h0]; rfl
      · obtain ⟨k, hk⟩ := Nat.exists_eq_add_of_lt h0
        rw [hk, zero_add] at h2 ⊢
        exact nextPGMode_alternate s.pgMode k (by simpa using h2 (by omega))
    simp only [trainAux]
    split
    · exact ⟨s.iter, h1⟩
    · apply ih
      · have hne : ¬(tc.method = PGMethod.NONE) := by rw [hm]; intro h; cases h
        simp only [if_neg hne, hmode, Option.getD_some]
        rw [h1, List.range_succ, List.map_append]
        rfl
      · intro _
        simp only [hmode]
        congr 1

/-- C7: under ProjectGradientMethod.ALTERNATE the projection mode used
by `train` strictly alternates between the two losses on consecutive
iterations: at iteration 0 the derivative loss (LOSS2) is primary and
the primary flips on every subsequent executed iteration, independent of
any convergence signal. -/
theorem c7_alternate_strictly_alternates {P : Type} (tc : TrainConfig)
    (collabAt : ℕ → P → TLCollab) (optStep : ℕ → P → P)
    (step_forward : Vec → Vec) (samples : Tensor) (p0 : P)
    (hm : tc.method = PGMethod.ALTERNATE) (i : ℕ)
    (hi : i < (train tc collabAt optStep step_forward
      samples p0).modeTrace.length) :
    (train tc collabAt optStep step_forward samples p0).modeTrace.get
        ⟨i, hi⟩ =
      if i % 2 = 0 then PGMode.LOSS2 else PGMode.LOSS1 := by
  obtain ⟨n, hn⟩ := trainAux_alternate_trace tc collabAt optStep hm
    tc.maxIterations
    { params := p0, pPool := samples, dPool := samples,
      dnPool := samples.map step_forward,
      losses := [], posCosts := [], derCosts := [],
      pgMode := none, iter := 0, modeTrace := [], poolTrace := [] }
    rfl (fun h => absurd h (lt_irrefl 0))
  revert hi
  show ∀ hi : i < (train tc collabAt optStep step_forward
      samples p0).modeTrace.length, _
  rw [show (train tc collabAt optStep step_forward samples p0).modeTrace
      = (List.range n).map altModeAt from hn]
  intro hi
  have hi' : i < n := by simpa using hi
  simp [altModeAt, List.get_eq_getElem]

/-- The witness configuration with the ALTERNATE projection method. -/
def altTrainConfig : TrainConfig :=
  { witTrainConfig with method := PGMethod.ALTERNATE }

/-- Witness for C7: a run of three non-converging iterations under
ALTERNATE uses LOSS2 at iteration 0 and LOSS1 at iteration 1. -/
theorem c7_witness :
    (train altTrainConfig (fun _ _ => constCollab (-2) 2)
      (fun _ p => p + 1) id [] (0 : ℚ)).modeTrace.get
        ⟨0, by decide⟩ = PGMode.LOSS2 ∧
    (train altTrainConfig (fun _ _ => constCollab (-2) 2)
      (fun _ p => p + 1) id [] (0 : ℚ)).modeTrace.get
        ⟨1, by decide⟩ = PGMode.LOSS1 := by
  constructor
  · exact (c7_alternate_strictly_alternates _ _ _ _ _ _ rfl 0
      (by decide)).trans (by decide)
  · exact (c7_alternate_strictly_alternates _ _ _ _ _ _ rfl 1
      (by decide)).trans (by decide)

/-! ### Claim C9 -/

theorem total_loss_pool_growth (cfg : TLConfig) (c : TLCollab)
    (pP dP dnP : Tensor) (o1 o2 o3 o4 : Option ℚ)
    (h : dP.length = dnP.length) :
    (total_loss cfg c pP dP dnP o1 o2 o3 o4).derPool.length =
      (total_loss cfg c pP dP dnP o1 o2 o3 o4).derNextPool.length ∧
    (total_loss cfg c pP dP dnP o1 o2 o3 o4).posPool.length ≤
      pP.length + 1 ∧
    (total_loss cfg c pP dP dnP o1 o2 o3 o4).derPool.length ≤
      dP.length + 1 ∧
    (total_loss cfg c pP dP dnP o1 o2 o3 o4).derNextPool.length ≤
      dnP.length + 1 := by
  rw [total_loss_derPool, total_loss_derNextPool, total_loss_posPool]
  cases hadv : cfg.addAdversarial <;> simp [List.length_append, h]

theorem trainAux_pool_invariant {P : Type} (tc : TrainConfig)
    (collabAt : ℕ → P → TLCollab) (optStep : ℕ → P → P) :
    ∀ (fuel : ℕ) (s : TState P),
      s.dPool.length = s.dnPool.length →
      (∀ e ∈ s.poolTrace, e.1 = e.2) →
      (∀ e ∈ (trainAux tc collabAt optStep fuel s).poolTrace,
        e.1 = e.2) ∧
      (trainAux tc collabAt optStep fuel s).dPool.length =
        (trainAux tc collabAt optStep fuel s).dnPool.length := by
  intro fuel
  induction fuel with
  | zero => intro s h1 h2; exact ⟨h2, h1⟩
  | succ f ih =>
    intro s h1 h2
    have hstep := total_loss_pool_growth tc.cfg (collabAt s.iter s.params)
      s.pPool s.dPool s.dnPool none none none none h1
    have htr : ∀ e ∈ s.poolTrace ++ [(s.dPool.length, s.dnPool.length)],
        e.1 = e.2 := by
      intro e he
      rcases List.mem_append.mp he with he | he
      · exact h2 e he
      · rcases List.mem_singleton.mp he with rfl
        exact h1
    simp only [trainAux]
    split
    · exact ⟨htr, hstep.1⟩
    · exact ih _ hstep.1 htr

/-- C9: throughout every run of `train` the derivative sample pool and
the derivative next-state pool have equal length — they start with one
next state per sample and at every executed iteration (recorded in the
ghost pool trace) the lengths agree, as each `total_loss` call grows the
positivity pool by at most one entry and the two derivative pools by at
most one paired entry, preserving the equal-length invariant. -/
theorem c9_derivative_pools_equal_length :
    (∀ (cfg : TLConfig) (c : TLCollab) (pP dP dnP : Tensor)
        (o1 o2 o3 o4 : Option ℚ), dP.length = dnP.length →
      (total_loss cfg c pP dP dnP o1 o2 o3 o4).derPool.length =
        (total_loss cfg c pP dP dnP o1 o2 o3 o4).derNextPool.length ∧
      (total_loss cfg c pP dP dnP o1 o2 o3 o4).posPool.length ≤
        pP.length + 1 ∧
      (total_loss cfg c pP dP dnP o1 o2 o3 o4).derPool.length ≤
        dP.length + 1 ∧
      (total_loss cfg c pP dP dnP o1 o2 o3 o4).derNextPool.length ≤
        dnP.length + 1) ∧
    (∀ (P : Type) (tc : TrainConfig) (collabAt : ℕ → P → TLCollab)
        (optStep : ℕ → P → P) (step_forward : Vec → Vec)
        (samples : Tensor) (p0 : P),
      (∀ e ∈ (train tc collabAt optStep step_forward
          samples p0).poolTrace, e.1 = e.2) ∧
      (train tc collabAt optStep step_forward samples p0).dPool.length =
        (train tc collabAt optStep step_forward
          samples p0).dnPool.length) := by
  refine ⟨total_loss_pool_growth, ?_⟩
  intro P tc collabAt optStep step_forward samples p0
  exact trainAux_pool_invariant tc collabAt optStep tc.maxIterations _
    (by simp) (by simp)

/-- The `total_loss` configuration with adversarial augmentation on. -/
def advTLConfig : TLConfig :=
  { defaultTLConfig with addAdversarial := true }

/-- The witness configuration with adversarial augmentation on. -/
def advTrainConfig : TrainConfig :=
  { witTrainConfig with maxIterations := 2, cfg := advTLConfig }

/-- Witness for C9, at a concrete `total_loss` call with adversarial
augmentation on, and a concrete two-iteration run. -/
theorem c9_witness :
    (total_loss advTLConfig (constCollab 0 0) [] [[1]] [[2]]
        none none none none).derPool.length =
      (total_loss advTLConfig (constCollab 0 0) [] [[1]] [[2]]
        none none none none).derNextPool.length ∧
    (train advTrainConfig (fun _ _ => constCollab (-2) 2)
      (fun _ p => p + 1) id [[3]] (0 : ℚ)).dPool.length =
    (train advTrainConfig (fun _ _ => constCollab (-2) 2)
      (fun _ p => p + 1) id [[3]] (0 : ℚ)).dnPool.length := by
  constructor
  · exact (c9_derivative_pools_equal_length.1 advTLConfig
      (constCollab 0 0) [] [[1]] [[2]] none none none none rfl).1
  · exact (c9_derivative_pools_equal_length.2 ℚ advTrainConfig
      (fun _ _ => constCollab (-2) 2) (fun _ p => p + 1) id [[3]] 0).2

/-! ### Claim C2: the convergence check of `train_with_line_search` -/

/-- The loop of `train_with_line_search` (lines 413-439), observed
through its convergence decision: the closure of iteration 0 is
evaluated before the loop with no convergence check, then for each
iteration `iter ≥ 1` the optimizer step re-evaluates the closure
(`costs iter` records the positivity and derivative MIP objectives of
that step) and the function returns True as soon as
`positivity cost < tol_pos AND derivative cost < tol_der`
(note: `<` against `+tol_pos`, line 420, not `≥ -tol_pos`), else
returns False once the iteration budget is exhausted. -/
def lineSearchAux (tolPos tolDer : ℚ) (costs : ℕ → ℚ × ℚ) :
    ℕ → ℕ → Bool
  | 0, _ => false
  | fuel + 1, iter =>
    if (costs iter).1 < tolPos ∧ (costs iter).2 < tolDer then true
    else lineSearchAux tolPos tolDer costs fuel (iter + 1)

/-- `TrainLyapunovReLU.train_with_line_search`, reduced to its returned
convergence flag: the loop body runs for iterations 1 to
`max_iterations - 1`. -/
def train_with_line_search (tolPos tolDer : ℚ) (costs : ℕ → ℚ × ℚ)
    (maxIterations : ℕ) : Bool :=
  lineSearchAux tolPos tolDer costs (maxIterations - 1) 1

/-- C2 (refuting evaluation): `train_with_line_search` does NOT use the
same convergence predicate as `train`. With the default tolerances, at
positivity objective −1 (Lyapunov positivity grossly violated) and
derivative objective 0, `train_with_line_search` reports convergence —
its check `pos < tol_pos` (line 420) accepts any sufficiently negative
positivity objective — although the predicate of `train` (line 500)
and of the class documentation, `pos ≥ -tol_pos`, fails there; on the
same certificate objectives (scaled to the integer-tolerance witness
configuration) `train` itself does not converge. -/
theorem c2_line_search_check_diverges :
    train_with_line_search (1/1000000) (3/100000) (fun _ => (-1, 0)) 2
      = true ∧
    ¬(-(1/1000000 : ℚ) ≤ -1) ∧
    (train witTrainConfig (fun _ _ => constCollab (-10) 0)
      (fun _ p => p) id [] (0 : ℚ)).converged = false ∧
    ¬(-witTrainConfig.tolPos ≤ -10) := by
  refine ⟨?_, by norm_num, by decide, by decide⟩
  show lineSearchAux (1/1000000) (3/100000) (fun _ => (-1, 0)) (0 + 1) 1
    = true
  rw [lineSearchAux]
  rw [if_pos ⟨by norm_num, by norm_num⟩]

/-! ### `train_lyapunov_on_samples` (the plateau-guarded trainer) -/

/-- `a < b` where `b` may be the initial `np.inf` (then True). -/
def ltOptInf (a : ℚ) (b : Option ℚ) : Prop :=
  match b with
  | none => True
  | some v => a < v

instance (a : ℚ) (b : Option ℚ) : Decidable (ltOptInf a b) := by
  cases b with
  | none => exact isTrue trivial
  | some v => exact inferInstanceAs (Decidable (a < v))

/-- `a > b` where `b` may be the initial `np.inf` (then False). -/
def gtOptInf (a : ℚ) (b : Option ℚ) : Prop :=
  match b with
  | none => False
  | some v => v < a

instance (a : ℚ) (b : Option ℚ) : Decidable (gtOptInf a b) := by
  cases b with
  | none => exact isFalse id
  | some v => exact inferInstanceAs (Decidable (v < a))

/-- The loop state of `train_lyapunov_on_samples`: the network
parameters, the best (minimal) MIP scalar loss seen so far and its
deep-copied network snapshot (`none` = still `np.inf` / unset), the
consecutive-increase counter, the previous iteration's MIP scalar loss
(`none` = `np.inf`) and the iteration counter. `earlyStop` is a ghost
observation of the iteration at which the `break` fired, if any. -/
structure SampState (P : Type) where
  params : P
  bestLoss : Option ℚ
  bestRelu : Option P
  numInc : ℕ
  prevLoss : Option ℚ
  iter : ℕ
  earlyStop : Option ℕ

/-- The `for iter_count in range(max_iterations)` loop of
`train_lyapunov_on_samples`, by structural recursion on the remaining
budget. Each iteration calls `total_loss` on the fixed sample set with
both MIP cost weights overridden to 0, forms the MIP scalar loss
`w_pos * (-pos_obj) + w_der * der_obj` from the attribute weights,
snapshots the current network whenever this scalar is strictly below
the best seen, then increments the consecutive-increase counter if the
scalar strictly exceeds the previous iteration's value — breaking out,
with no optimizer step and no `previous_mip_loss` update, when the
counter reaches `max_increasing_iterations` — and resets the counter
to 0 otherwise. -/
def samplesAux {P : Type} (cfg : TLConfig) (collabAt : ℕ → P → TLCollab)
    (optStep : ℕ → P → P) (sAll sNext : Tensor) (maxInc : ℕ) :
    ℕ → SampState P → SampState P
  | 0, s => s
  | fuel + 1, s =>
    let out := total_loss cfg (collabAt s.iter s.params) sAll sAll sNext
      none none (some 0) (some 0)
    let mipLoss := cfg.wPosMip * (-out.posObj) + cfg.wDerMip * out.derObj
    if gtOptInf mipLoss s.prevLoss then
      if s.numInc + 1 = maxInc then
        { params := s.params,
          bestLoss := if ltOptInf mipLoss s.bestLoss then some mipLoss
            else s.bestLoss,
          bestRelu := if ltOptInf mipLoss s.bestLoss then some s.params
            else s.bestRelu,
          numInc := s.numInc + 1, prevLoss := s.prevLoss, iter := s.iter,
          earlyStop := some s.iter }
      else
        samplesAux cfg collabAt optStep sAll sNext maxInc fuel
          { params := optStep s.iter s.params,
            bestLoss := if ltOptInf mipLoss s.bestLoss then some mipLoss
              else s.bestLoss,
            bestRelu := if ltOptInf mipLoss s.bestLoss then some s.params
              else s.bestRelu,
            numInc := s.numInc + 1, prevLoss := some mipLoss,
            iter := s.iter + 1, earlyStop := s.earlyStop }
    else
      samplesAux cfg collabAt optStep sAll sNext maxInc fuel
        { params := optStep s.iter s.params,
          bestLoss := if ltOptInf mipLoss s.bestLoss then some mipLoss
            else s.bestLoss,
          bestRelu := if ltOptInf mipLoss s.bestLoss then some s.params
            else s.bestRelu,
          numInc := 0, prevLoss := some mipLoss, iter := s.iter + 1,
          earlyStop := s.earlyStop }

/-- The observable outcome of `train_lyapunov_on_samples`: the
parameters finally loaded back into the caller's network from the best
snapshot (`none` models the `best_relu` NameError when no iteration ever
ran), the best MIP scalar loss, and the break iteration if any. -/
structure SampResult (P : Type) where
  finalRelu : Option P
  bestLoss : Option ℚ
  earlyStop : Option ℕ

/-- `TrainLyapunovReLU.train_lyapunov_on_samples`: steps every sample
once for the next-state tensor, runs the loop, and loads the best
snapshot's parameters back into the network. -/
def train_lyapunov_on_samples {P : Type} (cfg : TLConfig)
    (collabAt : ℕ → P → TLCollab) (optStep : ℕ → P → P)
    (step_forward : Vec → Vec) (state_samples_all : Tensor)
    (maxIterations maxIncreasing : ℕ) (params : P) : SampResult P :=
  let final := samplesAux cfg collabAt optStep state_samples_all
    (state_samples_all.map step_forward) maxIncreasing maxIterations
    { params := params, bestLoss := none, bestRelu := none, numInc := 0,
      prevLoss := none, iter := 0, earlyStop := none }
  { finalRelu := final.bestRelu, bestLoss := final.bestLoss,
    earlyStop := final.earlyStop }

/-- The parameter path of a run: `iterParams optStep p0 i` is the
network parameter vector at the start of iteration `i`. -/
def iterParams {P : Type} (optStep : ℕ → P → P) (p0 : P) : ℕ → P
  | 0 => p0
  | n + 1 => optStep n (iterParams optStep p0 n)

/-- The MIP scalar loss the code computes at iteration `i` of a
`train_lyapunov_on_samples` run (lines 583-586):
`w_pos * (-positivity objective) + w_der * derivative objective`. -/
def sampKey {P : Type} (cfg : TLConfig) (collabAt : ℕ → P → TLCollab)
    (optStep : ℕ → P → P) (sAll sNext : Tensor) (p0 : P) (i : ℕ) : ℚ :=
  cfg.wPosMip *
      (-(total_loss cfg (collabAt i (iterParams optStep p0 i)) sAll sAll
        sNext none none (some 0) (some 0)).posObj) +
    cfg.wDerMip *
      (total_loss cfg (collabAt i (iterParams optStep p0 i)) sAll sAll
        sNext none none (some 0) (some 0)).derObj

/-- The snapshot key exactly as the claim (and spec §4.5) words it:
`w_pos * max(0, -positivity_obj) + w_der * max(0, derivative_obj)`. -/
def claimedSnapshotKey (wPos wDer pos der : ℚ) : ℚ :=
  wPos * max 0 (-pos) + wDer * max 0 der

/-! ### Claim C3 -/

/-- One non-breaking iteration of `samplesAux`: the MIP scalar loss and
the resolved best pair / counter are supplied as hypotheses. -/
theorem samplesAux_cont {P : Type} (cfg : TLConfig)
    (collabAt : ℕ → P → TLCollab) (optStep : ℕ → P → P)
    (sAll sNext : Tensor) (maxInc : ℕ) (fuel : ℕ) (s : SampState P)
    (mip : ℚ) (b' : Option ℚ) (r' : Option P) (n' : ℕ)
    (hmip : cfg.wPosMip * (-(total_loss cfg (collabAt s.iter s.params)
        sAll sAll sNext none none (some 0) (some 0)).posObj) +
      cfg.wDerMip * (total_loss cfg (collabAt s.iter s.params) sAll sAll
        sNext none none (some 0) (some 0)).derObj = mip)
    (hb : (if ltOptInf mip s.bestLoss then some mip else s.bestLoss) = b')
    (hr : (if ltOptInf mip s.bestLoss then some s.params else s.bestRelu)
      = r')
    (hn : (if gtOptInf mip s.prevLoss then s.numInc + 1 else 0) = n')
    (hnb : gtOptInf mip s.prevLoss → s.numInc + 1 ≠ maxInc) :
    samplesAux cfg collabAt optStep sAll sNext maxInc (fuel + 1) s =
      samplesAux cfg collabAt optStep sAll sNext maxInc fuel
        { params := optStep s.iter s.params, bestLoss := b',
          bestRelu := r', numInc := n', prevLoss := some mip,
          iter := s.iter + 1, earlyStop := s.earlyStop } := by
  simp only [samplesAux, hmip]
  by_cases hgt : gtOptInf mip s.prevLoss
  · rw [if_pos hgt, if_neg (hnb hgt), hb, hr,
      show s.numInc + 1 = n' from by rw [← hn, if_pos hgt]]
  · rw [if_neg hgt, hb, hr,
      show 0 = n' from by rw [← hn, if_neg hgt]]

/-- The breaking iteration of `samplesAux`: the counter reaches
`max_increasing_iterations`, the loop stops with no optimizer step and
no `previous_mip_loss` update. -/
theorem samplesAux_break {P : Type} (cfg : TLConfig)
    (collabAt : ℕ → P → TLCollab) (optStep : ℕ → P → P)
    (sAll sNext : Tensor) (maxInc : ℕ) (fuel : ℕ) (s : SampState P)
    (mip : ℚ) (b' : Option ℚ) (r' : Option P)
    (hmip : cfg.wPosMip * (-(total_loss cfg (collabAt s.iter s.params)
        sAll sAll sNext none none (some 0) (some 0)).posObj) +
      cfg.wDerMip * (total_loss cfg (collabAt s.iter s.params) sAll sAll
        sNext none none (some 0) (some 0)).derObj = mip)
    (hb : (if ltOptInf mip s.bestLoss then some mip else s.bestLoss) = b')
    (hr : (if ltOptInf mip s.bestLoss then some s.params else s.bestRelu)
      = r')
    (hgt : gtOptInf mip s.prevLoss)
    (hstop : s.numInc + 1 = maxInc) :
    samplesAux cfg collabAt optStep sAll sNext maxInc (fuel + 1) s =
      { params := s.params, bestLoss := b', bestRelu := r',
        numInc := s.numInc + 1, prevLoss := s.prevLoss, iter := s.iter,
        earlyStop := some s.iter } := by
  simp only [samplesAux, hmip]
  rw [if_pos hgt, if_pos hstop, hb, hr]

/-- C3 (counterexample): the best-network snapshot of
`train_lyapunov_on_samples` is NOT keyed by the clamped scalar
`w_pos·max(0,−pos_obj) + w_der·max(0,der_obj)`. In a two-iteration run
with positivity objectives 1 then 2 (derivative objectives 0) and both
MIP weights 10, the code's key `w_pos·(−pos) + w_der·der` strictly
improves at iteration 1 (−10 to −20), so the snapshot is replaced there
and the restored network holds the iteration-1 parameters (1, not the
iteration-0 parameters 0) — although the claimed clamped key does not
strictly improve (it is 0 at both iterations). -/
theorem c3_counterexample :
    (train_lyapunov_on_samples defaultTLConfig
      (fun i _ => constCollab (if i = 0 then 1 else 2) 0)
      (fun _ p => p + 1) id [] 2 5 (0 : ℚ)).finalRelu = some 1 ∧
    ¬(claimedSnapshotKey 10 10 2 0 < claimedSnapshotKey 10 10 1 0) := by
  constructor
  · show (samplesAux defaultTLConfig
      (fun i _ => constCollab (if i = 0 then 1 else 2) 0)
      (fun _ p => p + 1) [] [] 5 2
      ⟨0, none, none, 0, none, 0, none⟩).bestRelu = some 1
    have e0 : samplesAux defaultTLConfig
        (fun i _ => constCollab (if i = 0 then 1 else 2) 0)
        (fun _ p => p + 1) [] [] 5 2
        ⟨0, none, none, 0, none, 0, none⟩ =
        samplesAux defaultTLConfig
        (fun i _ => constCollab (if i = 0 then 1 else 2) 0)
        (fun _ p => p + 1) [] [] 5 1
        ⟨(0 : ℚ) + 1, some (-10), some 0, 0, some (-10), 1, none⟩ :=
      samplesAux_cont _ _ _ _ _ _ 1 _ (-10) (some (-10)) (some 0) 0
        (by norm_num [total_loss_posObj, total_loss_derObj, constCollab,
          defaultTLConfig])
        (by simp [ltOptInf]) (by simp [ltOptInf]) (by simp [gtOptInf])
        (fun h => absurd h (by simp [gtOptInf]))
    have e1 : samplesAux defaultTLConfig
        (fun i _ => constCollab (if i = 0 then 1 else 2) 0)
        (fun _ p => p + 1) [] [] 5 1
        ⟨(0 : ℚ) + 1, some (-10), some 0, 0, some (-10), 1, none⟩ =
        samplesAux defaultTLConfig
        (fun i _ => constCollab (if i = 0 then 1 else 2) 0)
        (fun _ p => p + 1) [] [] 5 0
        ⟨(0 : ℚ) + 1 + 1, some (-20), some ((0 : ℚ) + 1), 0, some (-20),
          2, none⟩ :=
      samplesAux_cont _ _ _ _ _ _ 0 _ (-20) (some (-20))
        (some ((0 : ℚ) + 1)) 0
        (by norm_num [total_loss_posObj, total_loss_derObj, constCollab,
          defaultTLConfig])
        (by rw [if_pos (show ltOptInf (-20) (some (-10)) from
          by norm_num [ltOptInf])])
        (by rw [if_pos (show ltOptInf (-20) (some (-10)) from
          by norm_num [ltOptInf])])
        (by rw [if_neg (show ¬gtOptInf (-20) (some (-10)) from
          by norm_num [gtOptInf])])
        (fun _ => by decide)
    rw [e0, e1]
    show some ((0 : ℚ) + 1) = some 1
    norm_num
  · show ¬((10 : ℚ) * max 0 (-2) + 10 * max 0 0 <
      10 * max 0 (-1) + 10 * max 0 0)
    norm_num

/-- The loop invariant behind the amended C3: running the remaining
`fuel` iterations from a state whose best pair already describes the
first minimum of the key over the processed prefix, and whose
consecutive-increase counter cannot reach the threshold within the
budget, yields the first minimum over the whole range. -/
theorem samplesAux_min_char {P : Type} (cfg : TLConfig)
    (collabAt : ℕ → P → TLCollab) (optStep : ℕ → P → P)
    (sAll sNext : Tensor) (maxInc : ℕ) (p0 : P) :
    ∀ (fuel : ℕ) (s : SampState P),
      s.params = iterParams optStep p0 s.iter →
      s.numInc ≤ s.iter →
      s.iter + fuel < maxInc →
      s.earlyStop = none →
      ((s.iter = 0 ∧ s.bestLoss = none ∧ s.bestRelu = none) ∨
        (∃ i < s.iter,
          s.bestLoss = some (sampKey cfg collabAt optStep sAll sNext p0 i) ∧
          s.bestRelu = some (iterParams optStep p0 i) ∧
          (∀ j < s.iter, sampKey cfg collabAt optStep sAll sNext p0 i ≤
            sampKey cfg collabAt optStep sAll sNext p0 j) ∧
          (∀ j < i, sampKey cfg collabAt optStep sAll sNext p0 i <
            sampKey cfg collabAt optStep sAll sNext p0 j))) →
      (samplesAux cfg collabAt optStep sAll sNext maxInc fuel
          s).earlyStop = none ∧
      ((s.iter + fuel = 0 ∧
          (samplesAux cfg collabAt optStep sAll sNext maxInc fuel
            s).bestLoss = none ∧
          (samplesAux cfg collabAt optStep sAll sNext maxInc fuel
            s).bestRelu = none) ∨
        (∃ i < s.iter + fuel,
          (samplesAux cfg collabAt optStep sAll sNext maxInc fuel
            s).bestLoss =
              some (sampKey cfg collabAt optStep sAll sNext p0 i) ∧
          (samplesAux cfg collabAt optStep sAll sNext maxInc fuel
            s).bestRelu = some (iterParams optStep p0 i) ∧
          (∀ j < s.iter + fuel,
            sampKey cfg collabAt optStep sAll sNext p0 i ≤
              sampKey cfg collabAt optStep sAll sNext p0 j) ∧
          (∀ j < i, sampKey cfg collabAt optStep sAll sNext p0 i <
            sampKey cfg collabAt optStep sAll sNext p0 j))) := by
  intro fuel
  induction fuel with
  | zero =>
    intro s hp hn _ hes hbest
    rcases hbest with ⟨h0, hb, hr⟩ | ⟨i, hi, hb, hr, hmin, hfirst⟩
    · exact ⟨hes, Or.inl ⟨by omega, hb, hr⟩⟩
    · exact ⟨hes, Or.inr ⟨i, by omega, hb, hr,
        fun j hj => hmin j (by omega), hfirst⟩⟩
  | succ f ih =>
    intro s hp hn hfu hes hbest
    have hkey : cfg.wPosMip *
        (-(total_loss cfg (collabAt s.iter s.params) sAll sAll sNext
          none none (some 0) (some 0)).posObj) +
        cfg.wDerMip * (total_loss cfg (collabAt s.iter s.params) sAll
          sAll sNext none none (some 0) (some 0)).derObj =
        sampKey cfg collabAt optStep sAll sNext p0 s.iter := by
      rw [hp]; rfl
    have hnewbest :
        ((if ltOptInf (sampKey cfg collabAt optStep sAll sNext p0 s.iter)
            s.bestLoss then
          some (sampKey cfg collabAt optStep sAll sNext p0 s.iter)
          else s.bestLoss) = none →
          False) ∧
        ∃ i < s.iter + 1,
          (if ltOptInf (sampKey cfg collabAt optStep sAll sNext p0 s.iter)
              s.bestLoss then
            some (sampKey cfg collabAt optStep sAll sNext p0 s.iter)
            else s.bestLoss) =
            some (sampKey cfg collabAt optStep sAll sNext p0 i) ∧
          (if ltOptInf (sampKey cfg collabAt optStep sAll sNext p0 s.iter)
              s.bestLoss then some s.params else s.bestRelu) =
            some (iterParams optStep p0 i) ∧
          (∀ j < s.iter + 1,
            sampKey cfg collabAt optStep sAll sNext p0 i ≤
              sampKey cfg collabAt optStep sAll sNext p0 j) ∧
          (∀ j < i, sampKey cfg collabAt optStep sAll sNext p0 i <
            sampKey cfg collabAt optStep sAll sNext p0 j) := by
      rcases hbest with ⟨h0, hb, hr⟩ | ⟨i, hi, hb, hr, hmin, hfirst⟩
      · have hlt : ltOptInf (sampKey cfg collabAt optStep sAll sNext p0
            s.iter) s.bestLoss := by rw [hb]; trivial
        rw [if_pos hlt, if_pos hlt]
        refine ⟨fun h => Option.noConfusion h, s.iter, by omega, rfl,
          by rw [hp], ?_, ?_⟩
        · intro j hj
          have hj0 : j = s.iter := by omega
          rw [hj0]
        · intro j hj
          exact absurd hj (by omega)
      · rw [hb, hr]
        by_cases hlt : sampKey cfg collabAt optStep sAll sNext p0 s.iter <
          sampKey cfg collabAt optStep sAll sNext p0 i
        · have hlt' : ltOptInf (sampKey cfg collabAt optStep sAll sNext p0
              s.iter) (some (sampKey cfg collabAt optStep sAll sNext p0
              i)) := hlt
          rw [if_pos hlt', if_pos hlt']
          refine ⟨fun h => Option.noConfusion h, s.iter, by omega, rfl,
            by rw [hp], ?_, ?_⟩
          · intro j hj
            rcases Nat.lt_succ_iff_lt_or_eq.mp hj with hj | rfl
            · exact le_of_lt (lt_of_lt_of_le hlt (hmin j hj))
            · exact le_refl _
          · intro j hj
            exact lt_of_lt_of_le hlt (hmin j hj)
        · have hlt' : ¬ ltOptInf (sampKey cfg collabAt optStep sAll sNext
              p0 s.iter) (some (sampKey cfg collabAt optStep sAll sNext
              p0 i)) := hlt
          rw [if_neg hlt', if_neg hlt']
          refine ⟨fun h => Option.noConfusion h, i,
            by omega, rfl, rfl, ?_, hfirst⟩
          intro j hj
          rcases Nat.lt_succ_iff_lt_or_eq.mp hj with hj | rfl
          · exact hmin j hj
          · exact le_of_not_lt hlt
    simp only [samplesAux, hkey]
    by_cases hgt : gtOptInf (sampKey cfg collabAt optStep sAll sNext p0
      s.iter) s.prevLoss
    · rw [if_pos hgt, if_neg (show ¬(s.numInc + 1 = maxInc) from
        by omega)]
      have hres := ih
        { params := optStep s.iter s.params,
          bestLoss := if ltOptInf (sampKey cfg collabAt optStep sAll
              sNext p0 s.iter) s.bestLoss then
            some (sampKey cfg collabAt optStep sAll sNext p0 s.iter)
            else s.bestLoss,
          bestRelu := if ltOptInf (sampKey cfg collabAt optStep sAll
              sNext p0 s.iter) s.bestLoss then some s.params
            else s.bestRelu,
          numInc := s.numInc + 1,
          prevLoss := some (sampKey cfg collabAt optStep sAll sNext p0
            s.iter),
          iter := s.iter + 1, earlyStop := s.earlyStop }
        (by show optStep s.iter s.params = iterParams optStep p0 (s.iter + 1); rw [hp]; rfl)
        (by show s.numInc + 1 ≤ s.iter + 1; omega)
        (by show s.iter + 1 + f < maxInc; omega)
        (by show s.earlyStop = none; exact hes)
        (Or.inr hnewbest.2)
      refine ⟨hres.1, ?_⟩
      rcases hres.2 with ⟨habs, _, _⟩ | ⟨i, hi, hb2, hr2, hmin2, hfirst2⟩
      · exact absurd (show s.iter + 1 + f = 0 from habs) (by omega)
      · exact Or.inr ⟨i,
          by have hi2 : i < s.iter + 1 + f := hi; omega, hb2, hr2,
          fun j hj => hmin2 j (by show j < s.iter + 1 + f; omega),
          hfirst2⟩
    · rw [if_neg hgt]
      have hres := ih
        { params := optStep s.iter s.params,
          bestLoss := if ltOptInf (sampKey cfg collabAt optStep sAll
              sNext p0 s.iter) s.bestLoss then
            some (sampKey cfg collabAt optStep sAll sNext p0 s.iter)
            else s.bestLoss,
          bestRelu := if ltOptInf (sampKey cfg collabAt optStep sAll
              sNext p0 s.iter) s.bestLoss then some s.params
            else s.bestRelu,
          numInc := 0,
          prevLoss := some (sampKey cfg collabAt optStep sAll sNext p0
            s.iter),
          iter := s.iter + 1, earlyStop := s.earlyStop }
        (by show optStep s.iter s.params = iterParams optStep p0 (s.iter + 1); rw [hp]; rfl)
        (by show 0 ≤ s.iter + 1; omega)
        (by show s.iter + 1 + f < maxInc; omega)
        (by show s.earlyStop = none; exact hes)
        (Or.inr hnewbest.2)
      refine ⟨hres.1, ?_⟩
      rcases hres.2 with ⟨habs, _, _⟩ | ⟨i, hi, hb2, hr2, hmin2, hfirst2⟩
      · exact absurd (show s.iter + 1 + f = 0 from habs) (by omega)
      · exact Or.inr ⟨i,
          by have hi2 : i < s.iter + 1 + f := hi; omega, hb2, hr2,
          fun j hj => hmin2 j (by show j < s.iter + 1 + f; omega),
          hfirst2⟩

/-- C3 (amended): in `train_lyapunov_on_samples` the best-network
snapshot is keyed by the UNCLAMPED scalar
`w_pos·(−positivity_objective) + w_der·derivative_objective` — which
coincides with the claimed clamped scalar whenever the positivity
objective is ≤ 0 and the derivative objective ≥ 0 — and the snapshot is
replaced exactly at the iterations where this scalar strictly improves
on the best seen so far: over any run that does not stop early (forced
here by `max_iterations < max_increasing_iterations`), the network
restored at the end is the parameter vector of the first iteration
attaining the minimum of this scalar and the recorded best loss is that
minimum. -/
theorem c3_amended_snapshot_min_key {P : Type} (cfg : TLConfig)
    (collabAt : ℕ → P → TLCollab) (optStep : ℕ → P → P)
    (step_forward : Vec → Vec) (sAll : Tensor) (p0 : P)
    (maxIterations maxIncreasing : ℕ) (h0 : 0 < maxIterations)
    (hni : maxIterations < maxIncreasing) :
    ∃ i < maxIterations,
      (train_lyapunov_on_samples cfg collabAt optStep step_forward sAll
        maxIterations maxIncreasing p0).finalRelu =
          some (iterParams optStep p0 i) ∧
      (train_lyapunov_on_samples cfg collabAt optStep step_forward sAll
        maxIterations maxIncreasing p0).bestLoss =
          some (sampKey cfg collabAt optStep sAll
            (sAll.map step_forward) p0 i) ∧
      (∀ j < maxIterations,
        sampKey cfg collabAt optStep sAll (sAll.map step_forward) p0 i ≤
          sampKey cfg collabAt optStep sAll (sAll.map step_forward) p0 j) ∧
      (∀ j < i,
        sampKey cfg collabAt optStep sAll (sAll.map step_forward) p0 i <
          sampKey cfg collabAt optStep sAll (sAll.map step_forward) p0 j) ∧
      (train_lyapunov_on_samples cfg collabAt optStep step_forward sAll
        maxIterations maxIncreasing p0).earlyStop = none := by
  have h := samplesAux_min_char cfg collabAt optStep sAll
    (sAll.map step_forward) maxIncreasing p0 maxIterations
    { params := p0, bestLoss := none, bestRelu := none, numInc := 0,
      prevLoss := none, iter := 0, earlyStop := none }
    rfl (le_refl 0) (by show 0 + maxIterations < maxIncreasing; omega)
    rfl (Or.inl ⟨rfl, rfl, rfl⟩)
  rcases h.2 with ⟨habs, _, _⟩ | ⟨i, hi, hb, hr, hmin, hfirst⟩
  · exact absurd (show 0 + maxIterations = 0 from habs) (by omega)
  · exact ⟨i, by have hi2 : i < 0 + maxIterations := hi; omega, hr, hb,
      fun j hj => hmin j (by show j < 0 + maxIterations; omega),
      fun j hj => hfirst j hj, h.1⟩

/-- Witness for the amended C3, on the counterexample run: the minimum
of the code key over the two iterations is attained first (and only) at
iteration 1, whose parameters are restored. -/
theorem c3_amended_witness :
    ∃ i < 2,
      (train_lyapunov_on_samples defaultTLConfig
        (fun i _ => constCollab (if i = 0 then 1 else 2) 0)
        (fun _ p => p + 1) id [] 2 5 (0 : ℚ)).finalRelu =
          some (iterParams (fun _ p => p + 1) (0 : ℚ) i) ∧
      (train_lyapunov_on_samples defaultTLConfig
        (fun i _ => constCollab (if i = 0 then 1 else 2) 0)
        (fun _ p => p + 1) id [] 2 5 (0 : ℚ)).bestLoss =
          some (sampKey defaultTLConfig
            (fun i _ => constCollab (if i = 0 then 1 else 2) 0)
            (fun _ p => p + 1) [] (List.map id []) (0 : ℚ) i) ∧
      (∀ j < 2, sampKey defaultTLConfig
            (fun i _ => constCollab (if i = 0 then 1 else 2) 0)
            (fun _ p => p + 1) [] (List.map id []) (0 : ℚ) i ≤
          sampKey defaultTLConfig
            (fun i _ => constCollab (if i = 0 then 1 else 2) 0)
            (fun _ p => p + 1) [] (List.map id []) (0 : ℚ) j) ∧
      (∀ j < i, sampKey defaultTLConfig
            (fun i _ => constCollab (if i = 0 then 1 else 2) 0)
            (fun _ p => p + 1) [] (List.map id []) (0 : ℚ) i <
          sampKey defaultTLConfig
            (fun i _ => constCollab (if i = 0 then 1 else 2) 0)
            (fun _ p => p + 1) [] (List.map id []) (0 : ℚ) j) ∧
      (train_lyapunov_on_samples defaultTLConfig
        (fun i _ => constCollab (if i = 0 then 1 else 2) 0)
        (fun _ p => p + 1) id [] 2 5 (0 : ℚ)).earlyStop = none :=
  c3_amended_snapshot_min_key defaultTLConfig
    (fun i _ => constCollab (if i = 0 then 1 else 2) 0)
    (fun _ p => p + 1) id [] (0 : ℚ) 2 5 (by omega) (by omega)

/-! ### Claim C8 -/

/-- `samplesAux_cont` with the loop state given field by field, so that
instances need no structure projections. -/
theorem samplesAux_cont_mk {P : Type} (cfg : TLConfig)
    (collabAt : ℕ → P → TLCollab) (optStep : ℕ → P → P)
    (sAll sNext : Tensor) (maxInc : ℕ) (fuel : ℕ)
    (pp : P) (bl : Option ℚ) (br : Option P) (ni : ℕ) (pl : Option ℚ)
    (it : ℕ) (es : Option ℕ)
    (mip : ℚ) (b' : Option ℚ) (r' : Option P) (n' : ℕ)
    (hmip : cfg.wPosMip * (-(total_loss cfg (collabAt it pp)
        sAll sAll sNext none none (some 0) (some 0)).posObj) +
      cfg.wDerMip * (total_loss cfg (collabAt it pp) sAll sAll
        sNext none none (some 0) (some 0)).derObj = mip)
    (hb : (if ltOptInf mip bl then some mip else bl) = b')
    (hr : (if ltOptInf mip bl then some pp else br) = r')
    (hn : (if gtOptInf mip pl then ni + 1 else 0) = n')
    (hnb : gtOptInf mip pl → ni + 1 ≠ maxInc) :
    samplesAux cfg collabAt optStep sAll sNext maxInc (fuel + 1)
      ⟨pp, bl, br, ni, pl, it, es⟩ =
    samplesAux cfg collabAt optStep sAll sNext maxInc fuel
      ⟨optStep it pp, b', r', n', some mip, it + 1, es⟩ :=
  samplesAux_cont cfg collabAt optStep sAll sNext maxInc fuel
    ⟨pp, bl, br, ni, pl, it, es⟩ mip b' r' n' hmip hb hr hn hnb

/-- `samplesAux_break` with the loop state given field by field. -/
theorem samplesAux_break_mk {P : Type} (cfg : TLConfig)
    (collabAt : ℕ → P → TLCollab) (optStep : ℕ → P → P)
    (sAll sNext : Tensor) (maxInc : ℕ) (fuel : ℕ)
    (pp : P) (bl : Option ℚ) (br : Option P) (ni : ℕ) (pl : Option ℚ)
    (it : ℕ) (es : Option ℕ)
    (mip : ℚ) (b' : Option ℚ) (r' : Option P)
    (hmip : cfg.wPosMip * (-(total_loss cfg (collabAt it pp)
        sAll sAll sNext none none (some 0) (some 0)).posObj) +
      cfg.wDerMip * (total_loss cfg (collabAt it pp) sAll sAll
        sNext none none (some 0) (some 0)).derObj = mip)
    (hb : (if ltOptInf mip bl then some mip else bl) = b')
    (hr : (if ltOptInf mip bl then some pp else br) = r')
    (hgt : gtOptInf mip pl)
    (hstop : ni + 1 = maxInc) :
    samplesAux cfg collabAt optStep sAll sNext maxInc (fuel + 1)
      ⟨pp, bl, br, ni, pl, it, es⟩ =
      ⟨pp, b', r', ni + 1, pl, it, some it⟩ :=
  samplesAux_break cfg collabAt optStep sAll sNext maxInc fuel
    ⟨pp, bl, br, ni, pl, it, es⟩ mip b' r' hmip hb hr hgt hstop

/-- The collaborator family used in the C8 scenario: the positivity MIP
objective is 0, the derivative MIP objective at iteration `i` is
`der i`. -/
def derCollab {P : Type} (der : ℕ → ℚ) : ℕ → P → TLCollab :=
  fun i _ => constCollab 0 (der i)

/-- C8: in `train_lyapunov_on_samples`, the consecutive-non-improvement
counter is incremented exactly at the iterations whose MIP scalar loss
strictly exceeds the previous iteration's value and reset to zero
otherwise; when it reaches `max_increasing_iterations` the loop stops
early and the caller's network is overwritten with the best snapshot's
parameters. Concretely: for every certificate objective sequence whose
MIP scalar strictly decreases up to iteration 3 and strictly increases
at every iteration from 3 on, with `max_increasing_iterations = 5` and
any iteration budget beyond 8, the run breaks exactly at iteration
3 + 5 = 8 and the network restored is the snapshot of iteration 3. -/
theorem c8_plateau_guard_stops {P : Type} (optStep : ℕ → P → P)
    (step_forward : Vec → Vec) (p0 : P) (der : ℕ → ℚ)
    (maxIterations : ℕ) (hmax : 8 < maxIterations)
    (hdec : ∀ i < 3, der (i + 1) < der i)
    (hinc : ∀ i, 3 ≤ i → der i < der (i + 1)) :
    (train_lyapunov_on_samples defaultTLConfig (derCollab der) optStep
      step_forward [] maxIterations 5 p0).earlyStop = some 8 ∧
    (train_lyapunov_on_samples defaultTLConfig (derCollab der) optStep
      step_forward [] maxIterations 5 p0).finalRelu =
        some (iterParams optStep p0 3) := by
  obtain ⟨n, rfl⟩ : ∃ n, maxIterations = n + 9 :=
    ⟨maxIterations - 9, by omega⟩
  have d10 : der 1 < der 0 := hdec 0 (by omega)
  have d21 : der 2 < der 1 := hdec 1 (by omega)
  have d32 : der 3 < der 2 := hdec 2 (by omega)
  have d34 : der 3 < der 4 := hinc 3 (by omega)
  have d45 : der 4 < der 5 := hinc 4 (by omega)
  have d56 : der 5 < der 6 := hinc 5 (by omega)
  have d67 : der 6 < der 7 := hinc 6 (by omega)
  have d78 : der 7 < der 8 := hinc 7 (by omega)
  have L1 : ltOptInf ((10 : ℚ) * der 1) (some ((10 : ℚ) * der 0)) :=
    show (10 : ℚ) * der 1 < 10 * der 0 from by linarith
  have L2 : ltOptInf ((10 : ℚ) * der 2) (some ((10 : ℚ) * der 1)) :=
    show (10 : ℚ) * der 2 < 10 * der 1 from by linarith
  have L3 : ltOptInf ((10 : ℚ) * der 3) (some ((10 : ℚ) * der 2)) :=
    show (10 : ℚ) * der 3 < 10 * der 2 from by linarith
  have NG1 : ¬ gtOptInf ((10 : ℚ) * der 1) (some ((10 : ℚ) * der 0)) :=
    fun hgg =>
      absurd (show (10 : ℚ) * der 0 < 10 * der 1 from hgg) (by linarith)
  have NG2 : ¬ gtOptInf ((10 : ℚ) * der 2) (some ((10 : ℚ) * der 1)) :=
    fun hgg =>
      absurd (show (10 : ℚ) * der 1 < 10 * der 2 from hgg) (by linarith)
  have NG3 : ¬ gtOptInf ((10 : ℚ) * der 3) (some ((10 : ℚ) * der 2)) :=
    fun hgg =>
      absurd (show (10 : ℚ) * der 2 < 10 * der 3 from hgg) (by linarith)
  have NL4 : ¬ ltOptInf ((10 : ℚ) * der 4) (some ((10 : ℚ) * der 3)) :=
    fun hl =>
      absurd (show (10 : ℚ) * der 4 < 10 * der 3 from hl) (by linarith)
  have NL5 : ¬ ltOptInf ((10 : ℚ) * der 5) (some ((10 : ℚ) * der 3)) :=
    fun hl =>
      absurd (show (10 : ℚ) * der 5 < 10 * der 3 from hl) (by linarith)
  have NL6 : ¬ ltOptInf ((10 : ℚ) * der 6) (some ((10 : ℚ) * der 3)) :=
    fun hl =>
      absurd (show (10 : ℚ) * der 6 < 10 * der 3 from hl) (by linarith)
  have NL7 : ¬ ltOptInf ((10 : ℚ) * der 7) (some ((10 : ℚ) * der 3)) :=
    fun hl =>
      absurd (show (10 : ℚ) * der 7 < 10 * der 3 from hl) (by linarith)
  have NL8 : ¬ ltOptInf ((10 : ℚ) * der 8) (some ((10 : ℚ) * der 3)) :=
    fun hl =>
      absurd (show (10 : ℚ) * der 8 < 10 * der 3 from hl) (by linarith)
  have G4 : gtOptInf ((10 : ℚ) * der 4) (some ((10 : ℚ) * der 3)) :=
    show (10 : ℚ) * der 3 < 10 * der 4 from by linarith
  have G5 : gtOptInf ((10 : ℚ) * der 5) (some ((10 : ℚ) * der 4)) :=
    show (10 : ℚ) * der 4 < 10 * der 5 from by linarith
  have G6 : gtOptInf ((10 : ℚ) * der 6) (some ((10 : ℚ) * der 5)) :=
    show (10 : ℚ) * der 5 < 10 * der 6 from by linarith
  have G7 : gtOptInf ((10 : ℚ) * der 7) (some ((10 : ℚ) * der 6)) :=
    show (10 : ℚ) * der 6 < 10 * der 7 from by linarith
  have G8 : gtOptInf ((10 : ℚ) * der 8) (some ((10 : ℚ) * der 7)) :=
    show (10 : ℚ) * der 7 < 10 * der 8 from by linarith
  have e0 : samplesAux defaultTLConfig (derCollab der) optStep [] [] 5
      (n + 9) ⟨p0, none, none, 0, none, 0, none⟩ =
      samplesAux defaultTLConfig (derCollab der) optStep [] [] 5 (n + 8)
      ⟨iterParams optStep p0 1, some (10 * der 0), some p0, 0,
        some (10 * der 0), 1, none⟩ :=
    samplesAux_cont_mk defaultTLConfig (derCollab der) optStep [] [] 5
      (n + 8) p0 none none 0 none 0 none (10 * der 0)
      (some (10 * der 0)) (some p0) 0
      (by norm_num [derCollab, constCollab, total_loss_posObj,
        total_loss_derObj, defaultTLConfig])
      (by simp [ltOptInf]) (by simp [ltOptInf]) (by simp [gtOptInf])
      (fun hgg => absurd hgg (by simp [gtOptInf]))
  have e1 : samplesAux defaultTLConfig (derCollab der) optStep [] [] 5
      (n + 8) ⟨iterParams optStep p0 1, some (10 * der 0), some p0, 0,
        some (10 * der 0), 1, none⟩ =
      samplesAux defaultTLConfig (derCollab der) optStep [] [] 5 (n + 7)
      ⟨iterParams optStep p0 2, some (10 * der 1),
        some (iterParams optStep p0 1), 0, some (10 * der 1), 2, none⟩ :=
    samplesAux_cont_mk defaultTLConfig (derCollab der) optStep [] [] 5
      (n + 7) (iterParams optStep p0 1) (some (10 * der 0)) (some p0) 0
      (some (10 * der 0)) 1 none (10 * der 1) (some (10 * der 1))
      (some (iterParams optStep p0 1)) 0
      (by norm_num [derCollab, constCollab, total_loss_posObj,
        total_loss_derObj, defaultTLConfig])
      (by rw [if_pos L1]) (by rw [if_pos L1]) (by rw [if_neg NG1])
      (fun hgg => absurd hgg NG1)
  have e2 : samplesAux defaultTLConfig (derCollab der) optStep [] [] 5
      (n + 7) ⟨iterParams optStep p0 2, some (10 * der 1),
        some (iterParams optStep p0 1), 0, some (10 * der 1), 2, none⟩ =
      samplesAux defaultTLConfig (derCollab der) optStep [] [] 5 (n + 6)
      ⟨iterParams optStep p0 3, some (10 * der 2),
        some (iterParams optStep p0 2), 0, some (10 * der 2), 3, none⟩ :=
    samplesAux_cont_mk defaultTLConfig (derCollab der) optStep [] [] 5
      (n + 6) (iterParams optStep p0 2) (some (10 * der 1))
      (some (iterParams optStep p0 1)) 0 (some (10 * der 1)) 2 none
      (10 * der 2) (some (10 * der 2)) (some (iterParams optStep p0 2)) 0
      (by norm_num [derCollab, constCollab, total_loss_posObj,
        total_loss_derObj, defaultTLConfig])
      (by rw [if_pos L2]) (by rw [if_pos L2]) (by rw [if_neg NG2])
      (fun hgg => absurd hgg NG2)
  have e3 : samplesAux defaultTLConfig (derCollab der) optStep [] [] 5
      (n + 6) ⟨iterParams optStep p0 3, some (10 * der 2),
        some (iterParams optStep p0 2), 0, some (10 * der 2), 3, none⟩ =
      samplesAux defaultTLConfig (derCollab der) optStep [] [] 5 (n + 5)
      ⟨iterParams optStep p0 4, some (10 * der 3),
        some (iterParams optStep p0 3), 0, some (10 * der 3), 4, none⟩ :=
    samplesAux_cont_mk defaultTLConfig (derCollab der) optStep [] [] 5
      (n + 5) (iterParams optStep p0 3) (some (10 * der 2))
      (some (iterParams optStep p0 2)) 0 (some (10 * der 2)) 3 none
      (10 * der 3) (some (10 * der 3)) (some (iterParams optStep p0 3)) 0
      (by norm_num [derCollab, constCollab, total_loss_posObj,
        total_loss_derObj, defaultTLConfig])
      (by rw [if_pos L3]) (by rw [if_pos L3]) (by rw [if_neg NG3])
      (fun hgg => absurd hgg NG3)
  have e4 : samplesAux defaultTLConfig (derCollab der) optStep [] [] 5
      (n + 5) ⟨iterParams optStep p0 4, some (10 * der 3),
        some (iterParams optStep p0 3), 0, some (10 * der 3), 4, none⟩ =
      samplesAux defaultTLConfig (derCollab der) optStep [] [] 5 (n + 4)
      ⟨iterParams optStep p0 5, some (10 * der 3),
        some (iterParams optStep p0 3), 1, some (10 * der 4), 5, none⟩ :=
    samplesAux_cont_mk defaultTLConfig (derCollab der) optStep [] [] 5
      (n + 4) (iterParams optStep p0 4) (some (10 * der 3))
      (some (iterParams optStep p0 3)) 0 (some (10 * der 3)) 4 none
      (10 * der 4) (some (10 * der 3)) (some (iterParams optStep p0 3)) 1
      (by norm_num [derCollab, constCollab, total_loss_posObj,
        total_loss_derObj, defaultTLConfig])
      (by rw [if_neg NL4]) (by rw [if_neg NL4]) (by rw [if_pos G4])
      (fun _ => by omega)
  have e5 : samplesAux defaultTLConfig (derCollab der) optStep [] [] 5
      (n + 4) ⟨iterParams optStep p0 5, some (10 * der 3),
        some (iterParams optStep p0 3), 1, some (10 * der 4), 5, none⟩ =
      samplesAux defaultTLConfig (derCollab der) optStep [] [] 5 (n + 3)
      ⟨iterParams optStep p0 6, some (10 * der 3),
        some (iterParams optStep p0 3), 2, some (10 * der 5), 6, none⟩ :=
    samplesAux_cont_mk defaultTLConfig (derCollab der) optStep [] [] 5
      (n + 3) (iterParams optStep p0 5) (some (10 * der 3))
      (some (iterParams optStep p0 3)) 1 (some (10 * der 4)) 5 none
      (10 * der 5) (some (10 * der 3)) (some (iterParams optStep p0 3)) 2
      (by norm_num [derCollab, constCollab, total_loss_posObj,
        total_loss_derObj, defaultTLConfig])
      (by rw [if_neg NL5]) (by rw [if_neg NL5]) (by rw [if_pos G5])
      (fun _ => by omega)
  have e6 : samplesAux defaultTLConfig (derCollab der) optStep [] [] 5
      (n + 3) ⟨iterParams optStep p0 6, some (10 * der 3),
        some (iterParams optStep p0 3), 2, some (10 * der 5), 6, none⟩ =
      samplesAux defaultTLConfig (derCollab der) optStep [] [] 5 (n + 2)
      ⟨iterParams optStep p0 7, some (10 * der 3),
        some (iterParams optStep p0 3), 3, some (10 * der 6), 7, none⟩ :=
    samplesAux_cont_mk defaultTLConfig (derCollab der) optStep [] [] 5
      (n + 2) (iterParams optStep p0 6) (some (10 * der 3))
      (some (iterParams optStep p0 3)) 2 (some (10 * der 5)) 6 none
      (10 * der 6) (some (10 * der 3)) (some (iterParams optStep p0 3)) 3
      (by norm_num [derCollab, constCollab, total_loss_posObj,
        total_loss_derObj, defaultTLConfig])
      (by rw [if_neg NL6]) (by rw [if_neg NL6]) (by rw [if_pos G6])
      (fun _ => by omega)
  have e7 : samplesAux defaultTLConfig (derCollab der) optStep [] [] 5
      (n + 2) ⟨iterParams optStep p0 7, some (10 * der 3),
        some (iterParams optStep p0 3), 3, some (10 * der 6), 7, none⟩ =
      samplesAux defaultTLConfig (derCollab der) optStep [] [] 5 (n + 1)
      ⟨iterParams optStep p0 8, some (10 * der 3),
        some (iterParams optStep p0 3), 4, some (10 * der 7), 8, none⟩ :=
    samplesAux_cont_mk defaultTLConfig (derCollab der) optStep [] [] 5
      (n + 1) (iterParams optStep p0 7) (some (10 * der 3))
      (some (iterParams optStep p0 3)) 3 (some (10 * der 6)) 7 none
      (10 * der 7) (some (10 * der 3)) (some (iterParams optStep p0 3)) 4
      (by norm_num [derCollab, constCollab, total_loss_posObj,
        total_loss_derObj, defaultTLConfig])
      (by rw [if_neg NL7]) (by rw [if_neg NL7]) (by rw [if_pos G7])
      (fun _ => by omega)
  have e8 : samplesAux defaultTLConfig (derCollab der) optStep [] [] 5
      (n + 1) ⟨iterParams optStep p0 8, some (10 * der 3),
        some (iterParams optStep p0 3), 4, some (10 * der 7), 8, none⟩ =
      ⟨iterParams optStep p0 8, some (10 * der 3),
        some (iterParams optStep p0 3), 4 + 1, some (10 * der 7), 8,
        some 8⟩ :=
    samplesAux_break_mk defaultTLConfig (derCollab der) optStep [] [] 5
      n (iterParams optStep p0 8) (some (10 * der 3))
      (some (iterParams optStep p0 3)) 4 (some (10 * der 7)) 8 none
      (10 * der 8) (some (10 * der 3)) (some (iterParams optStep p0 3))
      (by norm_num [derCollab, constCollab, total_loss_posObj,
        total_loss_derObj, defaultTLConfig])
      (by rw [if_neg NL8]) (by rw [if_neg NL8]) G8 (by omega)
  have efin : samplesAux defaultTLConfig (derCollab der) optStep [] [] 5
      (n + 9) ⟨p0, none, none, 0, none, 0, none⟩ =
      ⟨iterParams optStep p0 8, some (10 * der 3),
        some (iterParams optStep p0 3), 4 + 1, some (10 * der 7), 8,
        some 8⟩ := by
    rw [e0, e1, e2, e3, e4, e5, e6, e7]
    exact e8
  constructor
  · show (samplesAux defaultTLConfig (derCollab der) optStep [] [] 5
      (n + 9) ⟨p0, none, none, 0, none, 0, none⟩).earlyStop = some 8
    rw [efin]
  · show (samplesAux defaultTLConfig (derCollab der) optStep [] [] 5
      (n + 9) ⟨p0, none, none, 0, none, 0, none⟩).bestRelu =
        some (iterParams optStep p0 3)
    rw [efin]

/-- A concrete certificate objective sequence for the C8 witness:
strictly decreasing until iteration 3, strictly increasing after. -/
def witDer : ℕ → ℚ := fun i => if i ≤ 3 then 6 - (i : ℚ) else (i : ℚ)

/-- Witness for C8, on the concrete sequence `witDer` with a budget of
20 iterations. -/
theorem c8_witness :
    (train_lyapunov_on_samples defaultTLConfig (derCollab witDer)
      (fun _ p => p + 1) id [] 20 5 (0 : ℚ)).earlyStop = some 8 ∧
    (train_lyapunov_on_samples defaultTLConfig (derCollab witDer)
      (fun _ p => p + 1) id [] 20 5 (0 : ℚ)).finalRelu =
        some (iterParams (fun _ p => p + 1) (0 : ℚ) 3) := by
  refine c8_plateau_guard_stops (fun _ p => p + 1) id (0 : ℚ) witDer 20
    (by omega) ?_ ?_
  · intro i hi
    interval_cases i <;> norm_num [witDer]
  · intro i hi
    rcases eq_or_lt_of_le hi with rfl | h4
    · norm_num [witDer]
    · have h5 : ¬(i ≤ 3) := by omega
      have h6 : ¬(i + 1 ≤ 3) := by omega
      simp only [witDer, if_neg h5, if_neg h6]
      push_cast
      linarith

/-- Witness for C6, with window size 1 and one-entry prepends to pools
of length 1. -/
theorem c6_witness :
    (total_loss { defaultTLConfig with maxSamplePoolSize := 1 }
        (constCollab 0 0) ([[9]] ++ [[1]]) ([[8]] ++ [[2]])
        ([[7]] ++ [[3]]) none none none none).loss =
      (total_loss { defaultTLConfig with maxSamplePoolSize := 1 }
        (constCollab 0 0) [[1]] [[2]] [[3]] none none none none).loss ∧
    (total_loss { defaultTLConfig with maxSamplePoolSize := 1 }
        (constCollab 0 0) ([[9]] ++ [[1]]) ([[8]] ++ [[2]])
        ([[7]] ++ [[3]]) none none none none).posSampleLoss =
      (total_loss { defaultTLConfig with maxSamplePoolSize := 1 }
        (constCollab 0 0) [[1]] [[2]] [[3]]
        none none none none).posSampleLoss := by
  have h := c6_prepend_invariance
    { defaultTLConfig with maxSamplePoolSize := 1 } (constCollab 0 0)
    [[9]] [[1]] [[8]] [[2]] [[7]] [[3]] none none none none
    (by decide) (by decide) (by decide) (by decide) (by decide)
  exact ⟨h.1, h.2.1⟩

/-! ### Claim C10: `total_loss` does not mutate its input tensors -/

/-- A store of allocated tensors, indexed by allocation order — the
reference model for torch tensors. `torch.cat` (and `unsqueeze`)
allocate fresh tensors; an in-place mutation would overwrite an
existing cell. -/
abbrev Store : Type := List Tensor

/-- Read the tensor a reference points at. -/
def storeRead (s : Store) (i : ℕ) : Tensor := List.getD s i []

/-- Allocate a fresh tensor: the store grows, existing cells are
untouched, and the new reference points past the old store. -/
def storeAlloc (s : Store) (t : Tensor) : Store × ℕ :=
  (s ++ [t], List.length s)

/-- The outcome of `total_loss` at the reference level. -/
structure HeapOut where
  store : Store
  pPtr : ℕ
  dPtr : ℕ
  dnPtr : ℕ
  res : TLOut

/-- `total_loss` at the level of tensor references (lines 324-357): the
three sample pools arrive as references into the store; the scalar
outputs are those of the pure `total_loss` on the referenced tensors.
With adversarial augmentation off, nothing is allocated and the input
references are returned unchanged; with it on, the three `torch.cat`
calls allocate fresh tensors holding the old rows plus one adversarial
row each, and the local pool names are re-bound to them. No existing
store cell is ever written — the function body contains no in-place
tensor operation. -/
def total_loss_heap (cfg : TLConfig) (c : TLCollab) (s : Store)
    (pRef dRef dnRef : ℕ) (o1 o2 o3 o4 : Option ℚ) : HeapOut :=
  let out := total_loss cfg c (storeRead s pRef) (storeRead s dRef)
    (storeRead s dnRef) o1 o2 o3 o4
  if cfg.addAdversarial then
    let a1 := storeAlloc s out.posPool
    let a2 := storeAlloc a1.1 out.derPool
    let a3 := storeAlloc a2.1 out.derNextPool
    ⟨a3.1, a1.2, a2.2, a3.2, out⟩
  else ⟨s, pRef, dRef, dnRef, out⟩

theorem storeRead_append_lt (s ts : Store) (j : ℕ) (h : j < s.length) :
    storeRead (s ++ ts) j = storeRead s j := by
  unfold storeRead
  induction s generalizing j with
  | nil => exact absurd h (by simp)
  | cons a t ih =>
    cases j with
    | zero => rfl
    | succ m => exact ih m (by simpa using h)

theorem storeRead_append_self (s : Store) (t : Tensor) (ts : Store) :
    storeRead (s ++ t :: ts) s.length = t := by
  unfold storeRead
  induction s with
  | nil => rfl
  | cons a r ih => simpa using ih

/-- C10: `total_loss` never mutates the sample tensors supplied by the
caller: every tensor already allocated before the call — the three
input pools in particular — reads back unchanged afterwards; with
adversarial augmentation off the store and the three references are
returned untouched, and with it on the three returned pool references
are fresh (they lie beyond the pre-call store) and point at newly
concatenated tensors holding the input rows plus the one adversarial
row each. -/
theorem c10_total_loss_no_mutation (cfg : TLConfig) (c : TLCollab)
    (s : Store) (pRef dRef dnRef : ℕ) (o1 o2 o3 o4 : Option ℚ) :
    (∀ j, j < s.length →
      storeRead (total_loss_heap cfg c s pRef dRef dnRef
        o1 o2 o3 o4).store j = storeRead s j) ∧
    (cfg.addAdversarial = false →
      (total_loss_heap cfg c s pRef dRef dnRef o1 o2 o3 o4).store = s ∧
      (total_loss_heap cfg c s pRef dRef dnRef o1 o2 o3 o4).pPtr = pRef ∧
      (total_loss_heap cfg c s pRef dRef dnRef o1 o2 o3 o4).dPtr = dRef ∧
      (total_loss_heap cfg c s pRef dRef dnRef o1 o2 o3 o4).dnPtr =
        dnRef) ∧
    (cfg.addAdversarial = true →
      s.length ≤ (total_loss_heap cfg c s pRef dRef dnRef
        o1 o2 o3 o4).pPtr ∧
      s.length ≤ (total_loss_heap cfg c s pRef dRef dnRef
        o1 o2 o3 o4).dPtr ∧
      s.length ≤ (total_loss_heap cfg c s pRef dRef dnRef
        o1 o2 o3 o4).dnPtr ∧
      storeRead (total_loss_heap cfg c s pRef dRef dnRef
          o1 o2 o3 o4).store
        (total_loss_heap cfg c s pRef dRef dnRef o1 o2 o3 o4).pPtr =
        storeRead s pRef ++ [c.posAdv] ∧
      storeRead (total_loss_heap cfg c s pRef dRef dnRef
          o1 o2 o3 o4).store
        (total_loss_heap cfg c s pRef dRef dnRef o1 o2 o3 o4).dPtr =
        storeRead s dRef ++ [c.derAdv] ∧
      storeRead (total_loss_heap cfg c s pRef dRef dnRef
          o1 o2 o3 o4).store
        (total_loss_heap cfg c s pRef dRef dnRef o1 o2 o3 o4).dnPtr =
        storeRead s dnRef ++ [c.derAdvNext]) := by
  by_cases hadv : cfg.addAdversarial = true
  · have hout1 : (total_loss cfg c (storeRead s pRef) (storeRead s dRef)
        (storeRead s dnRef) o1 o2 o3 o4).posPool =
        storeRead s pRef ++ [c.posAdv] := by
      rw [total_loss_posPool, if_pos hadv]
    have hout2 : (total_loss cfg c (storeRead s pRef) (storeRead s dRef)
        (storeRead s dnRef) o1 o2 o3 o4).derPool =
        storeRead s dRef ++ [c.derAdv] := by
      rw [total_loss_derPool, if_pos hadv]
    have hout3 : (total_loss cfg c (storeRead s pRef) (storeRead s dRef)
        (storeRead s dnRef) o1 o2 o3 o4).derNextPool =
        storeRead s dnRef ++ [c.derAdvNext] := by
      rw [total_loss_derNextPool, if_pos hadv]
    simp only [total_loss_heap, storeAlloc, if_pos hadv]
    refine ⟨?_, fun hc => absurd hadv (by rw [hc]; exact Bool.noConfusion),
      fun _ => ⟨?_, ?_, ?_, ?_, ?_, ?_⟩⟩
    · intro j hj
      rw [List.append_assoc, List.append_assoc]
      exact storeRead_append_lt s _ j hj
    · exact Nat.le_refl _
    · simp
    · simp
    · rw [List.append_assoc, List.append_assoc]
      rw [show ([(total_loss cfg c (storeRead s pRef) (storeRead s dRef)
          (storeRead s dnRef) o1 o2 o3 o4).posPool] ++
          ([(total_loss cfg c (storeRead s pRef) (storeRead s dRef)
            (storeRead s dnRef) o1 o2 o3 o4).derPool] ++
          [(total_loss cfg c (storeRead s pRef) (storeRead s dRef)
            (storeRead s dnRef) o1 o2 o3 o4).derNextPool])) =
          (total_loss cfg c (storeRead s pRef) (storeRead s dRef)
            (storeRead s dnRef) o1 o2 o3 o4).posPool ::
          ([(total_loss cfg c (storeRead s pRef) (storeRead s dRef)
            (storeRead s dnRef) o1 o2 o3 o4).derPool] ++
          [(total_loss cfg c (storeRead s pRef) (storeRead s dRef)
            (storeRead s dnRef) o1 o2 o3 o4).derNextPool]) from rfl]
      rw [storeRead_append_self, hout1]
    · rw [List.append_assoc]
      rw [show ([(total_loss cfg c (storeRead s pRef) (storeRead s dRef)
          (storeRead s dnRef) o1 o2 o3 o4).derPool] ++
          [(total_loss cfg c (storeRead s pRef) (storeRead s dRef)
            (storeRead s dnRef) o1 o2 o3 o4).derNextPool]) =
          (total_loss cfg c (storeRead s pRef) (storeRead s dRef)
            (storeRead s dnRef) o1 o2 o3 o4).derPool ::
          [(total_loss cfg c (storeRead s pRef) (storeRead s dRef)
            (storeRead s dnRef) o1 o2 o3 o4).derNextPool] from rfl]
      rw [storeRead_append_self, hout2]
    · rw [show [(total_loss cfg c (storeRead s pRef) (storeRead s dRef)
          (storeRead s dnRef) o1 o2 o3 o4).derNextPool] =
          (total_loss cfg c (storeRead s pRef) (storeRead s dRef)
            (storeRead s dnRef) o1 o2 o3 o4).derNextPool :: [] from rfl]
      rw [storeRead_append_self, hout3]
  · simp only [total_loss_heap, storeAlloc, if_neg hadv]
    simp [hadv]

/-- Witness for C10, at a three-tensor store with adversarial
augmentation on. -/
theorem c10_witness :
    storeRead (total_loss_heap advTLConfig (constCollab 0 0)
      [[[1]], [[2]], [[3]]] 0 1 2 none none none none).store 0 =
      storeRead [[[1]], [[2]], [[3]]] 0 ∧
    3 ≤ (total_loss_heap advTLConfig (constCollab 0 0)
      [[[1]], [[2]], [[3]]] 0 1 2 none none none none).pPtr ∧
    storeRead (total_loss_heap advTLConfig (constCollab 0 0)
        [[[1]], [[2]], [[3]]] 0 1 2 none none none none).store
      (total_loss_heap advTLConfig (constCollab 0 0)
        [[[1]], [[2]], [[3]]] 0 1 2 none none none none).pPtr =
      storeRead [[[1]], [[2]], [[3]]] 0 ++ [(constCollab 0 0).posAdv] := by
  have h := c10_total_loss_no_mutation advTLConfig (constCollab 0 0)
    [[[1]], [[2]], [[3]]] 0 1 2 none none none none
  exact ⟨h.1 0 (by decide), (h.2.2 rfl).1, (h.2.2 rfl).2.2.2.1⟩

end NNLyap
